import Mathlib

/-!
# OneSupportAI frontend: caches, utilities, tabs, logout and pagination

A shallow embedding of

* `frontend/src/services/productCacheService.js` (class `ProductCacheService`),
* `frontend/src/utils/phoneUtils.js` (`parsePhoneNumber`, `validatePhoneNumber`),
* `frontend/src/utils/nameFormatter.js` (`formatUserName`),
* `frontend/src/utils/errorHelper.js` (`handleApiError`),
* `frontend/src/contexts/TabContext.jsx` (`addTab`) with `hooks/useTab.js`,
* `frontend/src/services/authService.js` (`logoutUser`, `isAuthenticated`), and
* `frontend/src/components/DocumentManagement.jsx` (search filter and pagination),

followed by the properties proved about them.

Modelling conventions.

* `Date.now()` is an explicit argument `now : Nat` (milliseconds since the epoch).
* The browser `localStorage` is an association list of string keys and string values in
  its working state: `getItem`, `setItem` and `removeItem` do not throw.
* `JSON.stringify` / `JSON.parse` are platform functions and are taken as a parameter
  (`JSON`); `JSON.parse` throwing a `SyntaxError` is the result `none`, which sends the
  caller into its `catch` branch.
* JavaScript numbers are exact integers (`Int`); `NaN` is `none`.
* `String.prototype.toUpperCase` / `toLowerCase` and the coercions `ToString` / `ToNumber`
  are platform functions and are taken as parameters.
* A `throw` is the result `Except.error`.
* In `nameFormatter.js` a string is its sequence of UTF-16 code units, the units that
  `split`, `charAt` and `slice` index.
-/

namespace OneSupport

/-! ## JavaScript values -/

/-- Primitive JavaScript values. They are also the keys of a `Map`, where key equality
(SameValueZero) is structural equality. -/
inductive JsPrim where
  | undefined
  | null
  | bool (b : Bool)
  | num (n : Int)
  | str (s : String)
  deriving DecidableEq, Repr

/-- JavaScript values that can occur as cached data: primitives, arrays and plain objects. -/
inductive JsVal where
  | prim (p : JsPrim)
  | arr (items : List JsVal)
  | obj (fields : List (String × JsVal))

/-- The value `null`. -/
def JsVal.null : JsVal := .prim .null

/-- The value `undefined`. -/
def JsVal.undefined : JsVal := .prim .undefined

/-- Truthiness of a primitive (`ToBoolean`): `undefined`, `null`, `false`, `0` and `''` are
falsy. -/
def JsPrim.truthy : JsPrim → Bool
  | .undefined => false
  | .null => false
  | .bool b => b
  | .num n => n != 0
  | .str s => s != ""

/-- Truthiness of a value: every array and every object is truthy. -/
def JsVal.truthy : JsVal → Bool
  | .prim p => p.truthy
  | .arr _ => true
  | .obj _ => true

/-- Truthiness of a field that holds `null` (`none`) or a number. -/
def numTruthy : Option Int → Bool
  | none => false
  | some n => n != 0

/-- The comparison `Date.now() < x` where `x` is `null`/`NaN` (`none`) or a number.
`null` converts to `0` and `NaN` compares false, so `none` gives `false` for `now ≥ 0`. -/
def nowLt (now : Nat) : Option Int → Bool
  | none => false
  | some n => decide ((now : Int) < n)

/-- Truthiness of a string-or-null (`getItem` result): `null` and `''` are falsy. -/
def strTruthy : Option String → Bool
  | none => false
  | some s => s != ""

/-- The platform object `JSON`: `stringify` gives the text that `localStorage.setItem`
stores, `parse` returns `none` where `JSON.parse` throws. -/
structure JSON where
  stringify : JsVal → String
  parse : String → Option JsVal

/-! ## `parseInt` and `Number.prototype.toString` -/

/-- White space skipped by `parseInt` (`StrWhiteSpaceChar`): white space and line
terminators. -/
def isStrWhiteSpace (c : Char) : Bool :=
  c.val == 0x09 || c.val == 0x0A || c.val == 0x0B || c.val == 0x0C || c.val == 0x0D ||
  c.val == 0x20 || c.val == 0xA0 || c.val == 0x1680 ||
  (0x2000 ≤ c.val && c.val ≤ 0x200A) ||
  c.val == 0x2028 || c.val == 0x2029 || c.val == 0x202F || c.val == 0x205F ||
  c.val == 0x3000 || c.val == 0xFEFF

/-- Value of a character as a digit in the given radix (10 or 16), if it is one. -/
def digitValue (radix : Nat) (c : Char) : Option Nat :=
  if c.isDigit then some (c.toNat - '0'.toNat)
  else if radix = 16 ∧ 'a'.toNat ≤ c.toNat ∧ c.toNat ≤ 'f'.toNat then some (c.toNat - 'a'.toNat + 10)
  else if radix = 16 ∧ 'A'.toNat ≤ c.toNat ∧ c.toNat ≤ 'F'.toNat then some (c.toNat - 'A'.toNat + 10)
  else none

/-- Reads the longest run of digits at the front of the list: `none` when there is no digit,
otherwise the number they spell. -/
def readDigits (radix : Nat) : Option Nat → List Char → Option Nat
  | acc, [] => acc
  | acc, c :: cs =>
    match digitValue radix c with
    | none => acc
    | some d => readDigits radix (some (acc.getD 0 * radix + d)) cs

/-- After white space and sign: an optional `0x`/`0X` selects radix 16, otherwise radix 10. -/
def parseIntBody : List Char → Option Nat
  | c0 :: c1 :: cs =>
    if c0 = '0' ∧ (c1 = 'x' ∨ c1 = 'X') then readDigits 16 none cs
    else readDigits 10 none (c0 :: c1 :: cs)
  | cs => readDigits 10 none cs

/-- After white space: an optional sign. -/
def parseIntSigned : List Char → Option Int
  | c :: cs =>
    if c = '-' then Option.map (fun (n : Nat) => - (n : Int)) (parseIntBody cs)
    else if c = '+' then Option.map (fun (n : Nat) => (n : Int)) (parseIntBody cs)
    else Option.map (fun (n : Nat) => (n : Int)) (parseIntBody (c :: cs))
  | [] => none

/-- The global `parseInt(s)` (no radix argument); `none` is `NaN`. -/
def parseInt (s : String) : Option Int :=
  parseIntSigned (s.toList.dropWhile isStrWhiteSpace)

/-- The method `n.toString()` for a non-negative integer: its decimal digits. -/
def numberToString (n : Nat) : String := Nat.repr n

/-! ## `localStorage` -/

/-- Contents of `localStorage`: keys with their values, each key at most once. -/
abbrev Storage := List (String × String)

/-- The call `localStorage.getItem(key)`; `none` is `null`. -/
def Storage.getItem : Storage → String → Option String
  | [], _ => none
  | (k, v) :: rest, key => if k = key then some v else Storage.getItem rest key

/-- The call `localStorage.removeItem(key)`. -/
def Storage.removeItem (st : Storage) (key : String) : Storage :=
  st.filter (fun kv => kv.1 ≠ key)

/-- The call `localStorage.setItem(key, value)`: replaces the value of an existing key,
otherwise adds the key. -/
def Storage.setItem : Storage → String → String → Storage
  | [], key, value => [(key, value)]
  | (k, v) :: rest, key, value =>
    if k = key then (k, value) :: rest else (k, v) :: Storage.setItem rest key value

/-! ## `productCacheService.js` -/

namespace ProductCache

/-- Key of the suggested-products payload in `localStorage`. -/
def PRODUCT_CACHE_KEY : String := "product_cache"
/-- Key of the suggested-products expiry in `localStorage`. -/
def PRODUCT_CACHE_EXPIRY_KEY : String := "suggested_products_cache_expiry"
/-- Lifetime of the products entry: `3 * 60 * 60 * 1000` ms. -/
def PRODUCT_CACHE_DURATION : Nat := 3 * 60 * 60 * 1000

/-- Key of the door-counts payload in `localStorage`. -/
def DOOR_COUNTS_CACHE_KEY : String := "door_counts_cache"
/-- Key of the door-counts expiry in `localStorage`. -/
def DOOR_COUNTS_CACHE_EXPIRY_KEY : String := "door_counts_cache_expiry"
/-- Lifetime of the door-counts entry: `3 * 60 * 60 * 1000` ms. -/
def DOOR_COUNTS_CACHE_DURATION : Nat := 3 * 60 * 60 * 1000

/-- Key of the doors-homepage payload in `localStorage`. -/
def DOORS_HOME_CACHE_KEY : String := "doors_home_cache"
/-- Key of the doors-homepage expiry in `localStorage`. -/
def DOORS_HOME_CACHE_EXPIRY_KEY : String := "doors_home_cache_expiry"
/-- Lifetime of the doors-homepage entry: `3 * 60 * 60 * 1000` ms. -/
def DOORS_HOME_CACHE_DURATION : Nat := 3 * 60 * 60 * 1000

/-- Lifetime of a search-results entry: `5 * 60 * 1000` ms (literal in
`setCachedSearchResults`). -/
def SEARCH_RESULTS_DURATION : Nat := 5 * 60 * 1000

/-- An entry `{ results, expiry }` of `searchResultsCache`. -/
structure SearchEntry where
  results : JsVal
  expiry : Nat

/-- The class `ProductCacheService`: the fields of an instance. `searchResultsCache` is a
plain object used as a dictionary (every key written or read contains `::`, so no
inherited property is ever hit); `productDetailCache` is a `Map`. -/
structure ProductCacheService where
  memoryCache : JsVal
  memoryCacheExpiry : Option Int
  doorCountsMemoryCache : JsVal
  doorCountsMemoryCacheExpiry : Option Int
  searchResultsCache : List (String × SearchEntry)
  productDetailCache : List (JsPrim × JsVal)

/-- The constructor: what `new ProductCacheService()` builds. -/
def ProductCacheService.new : ProductCacheService where
  memoryCache := .null
  memoryCacheExpiry := none
  doorCountsMemoryCache := .null
  doorCountsMemoryCacheExpiry := none
  searchResultsCache := []
  productDetailCache := []

/-- The state the service methods act on: the instance and the browser's `localStorage`. -/
structure World where
  svc : ProductCacheService
  localStorage : Storage

/-- Reloading the page: a new instance over the `localStorage` that is there. -/
def World.reload (w : World) : World :=
  { svc := ProductCacheService.new, localStorage := w.localStorage }

/-- Property read `obj[key]` on the search-results dictionary. -/
def dictGet : List (String × SearchEntry) → String → Option SearchEntry
  | [], _ => none
  | (k, v) :: rest, key => if k = key then some v else dictGet rest key

/-- Property write `obj[key] = entry` on the search-results dictionary. -/
def dictSet : List (String × SearchEntry) → String → SearchEntry → List (String × SearchEntry)
  | [], key, e => [(key, e)]
  | (k, v) :: rest, key, e =>
    if k = key then (k, e) :: rest else (k, v) :: dictSet rest key e

/-- The call `map.get(key)`; `none` is `undefined`. -/
def mapGet : List (JsPrim × JsVal) → JsPrim → Option JsVal
  | [], _ => none
  | (k, v) :: rest, key => if k = key then some v else mapGet rest key

/-- The call `map.set(key, value)`. -/
def mapSet : List (JsPrim × JsVal) → JsPrim → JsVal → List (JsPrim × JsVal)
  | [], key, value => [(key, value)]
  | (k, v) :: rest, key, value =>
    if k = key then (k, value) :: rest else (k, v) :: mapSet rest key value

/-- The call `map.delete(key)`. -/
def mapDelete (m : List (JsPrim × JsVal)) (key : JsPrim) : List (JsPrim × JsVal) :=
  m.filter (fun kv => kv.1 ≠ key)

/-- Method `getCachedProducts()`: the memory cache first, then `localStorage` (hydrating
the memory cache), else `null`. -/
def getCachedProducts (J : JSON) (now : Nat) (w : World) : JsVal × World :=
  if w.svc.memoryCache.truthy && numTruthy w.svc.memoryCacheExpiry
      && nowLt now w.svc.memoryCacheExpiry then
    (w.svc.memoryCache, w)
  else
    let cachedData := w.localStorage.getItem PRODUCT_CACHE_KEY
    let cacheExpiry := w.localStorage.getItem PRODUCT_CACHE_EXPIRY_KEY
    if strTruthy cachedData && strTruthy cacheExpiry
        && nowLt now (parseInt (cacheExpiry.getD "")) then
      match J.parse (cachedData.getD "") with
      | some parsedData =>
        (parsedData,
          { w with svc := { w.svc with memoryCache := parsedData,
                                       memoryCacheExpiry := parseInt (cacheExpiry.getD "") } })
      | none => (.null, w)
    else (.null, w)

/-- Method `setCachedProducts(productsData)`: memory cache and `localStorage`. -/
def setCachedProducts (J : JSON) (now : Nat) (productsData : JsVal) (w : World) : World :=
  let expiryTime := now + PRODUCT_CACHE_DURATION
  { svc := { w.svc with memoryCache := productsData, memoryCacheExpiry := some (expiryTime : Int) },
    localStorage :=
      (w.localStorage.setItem PRODUCT_CACHE_KEY (J.stringify productsData)).setItem
        PRODUCT_CACHE_EXPIRY_KEY (numberToString expiryTime) }

/-- Method `getCachedDoorCounts()`: the memory cache first, then `localStorage`. -/
def getCachedDoorCounts (J : JSON) (now : Nat) (w : World) : JsVal × World :=
  if w.svc.doorCountsMemoryCache.truthy && numTruthy w.svc.doorCountsMemoryCacheExpiry
      && nowLt now w.svc.doorCountsMemoryCacheExpiry then
    (w.svc.doorCountsMemoryCache, w)
  else
    let cachedData := w.localStorage.getItem DOOR_COUNTS_CACHE_KEY
    let cacheExpiry := w.localStorage.getItem DOOR_COUNTS_CACHE_EXPIRY_KEY
    if strTruthy cachedData && strTruthy cacheExpiry
        && nowLt now (parseInt (cacheExpiry.getD "")) then
      match J.parse (cachedData.getD "") with
      | some parsed =>
        (parsed,
          { w with svc := { w.svc with doorCountsMemoryCache := parsed,
                                       doorCountsMemoryCacheExpiry :=
                                         parseInt (cacheExpiry.getD "") } })
      | none => (.null, w)
    else (.null, w)

/-- Method `setCachedDoorCounts(doorCountsData)`: memory, then "Persist to localStorage". -/
def setCachedDoorCounts (J : JSON) (now : Nat) (doorCountsData : JsVal) (w : World) : World :=
  let expiryTime := now + DOOR_COUNTS_CACHE_DURATION
  { svc := { w.svc with doorCountsMemoryCache := doorCountsData,
                        doorCountsMemoryCacheExpiry := some (expiryTime : Int) },
    localStorage :=
      (w.localStorage.setItem DOOR_COUNTS_CACHE_KEY (J.stringify doorCountsData)).setItem
        DOOR_COUNTS_CACHE_EXPIRY_KEY (numberToString expiryTime) }

/-- The template literal that builds the dictionary key of a search. -/
def searchKey (query searchType : String) : String := searchType ++ "::" ++ query

/-- Method `getCachedSearchResults(query, searchType)`. -/
def getCachedSearchResults (now : Nat) (query searchType : String) (w : World) : JsVal :=
  match dictGet w.svc.searchResultsCache (searchKey query searchType) with
  | some cachedEntry => if now < cachedEntry.expiry then cachedEntry.results else .null
  | none => .null

/-- Method `setCachedSearchResults(query, searchType, results)`. -/
def setCachedSearchResults (now : Nat) (query searchType : String) (results : JsVal)
    (w : World) : World :=
  let expiryTime := now + SEARCH_RESULTS_DURATION
  let cache := dictSet w.svc.searchResultsCache (searchKey query searchType)
    { results := results, expiry := expiryTime }
  { w with svc := { w.svc with searchResultsCache := cache } }

/-- Method `getCachedProductDetail(id)`; a missing entry gives `undefined`. -/
def getCachedProductDetail (id : JsPrim) (w : World) : JsVal :=
  (mapGet w.svc.productDetailCache id).getD .undefined

/-- Method `setCachedProductDetail(id, productData)`. -/
def setCachedProductDetail (id : JsPrim) (productData : JsVal) (w : World) : World :=
  { w with svc := { w.svc with productDetailCache := mapSet w.svc.productDetailCache id productData } }

/-- Method `clearProductDetailCache(id)`; a call without argument has `id = undefined`.
The `else` branch calls `this.productDetailCache.delete()`, that is `delete(undefined)`. -/
def clearProductDetailCache (id : JsPrim) (w : World) : World :=
  if id.truthy then
    { w with svc := { w.svc with productDetailCache := mapDelete w.svc.productDetailCache id } }
  else
    { w with svc := { w.svc with
        productDetailCache := mapDelete w.svc.productDetailCache .undefined } }

/-- Method `clearCache()`: the products entry in memory and in `localStorage`. -/
def clearCache (w : World) : World :=
  { svc := { w.svc with memoryCache := .null, memoryCacheExpiry := none },
    localStorage :=
      (w.localStorage.removeItem PRODUCT_CACHE_KEY).removeItem PRODUCT_CACHE_EXPIRY_KEY }

/-- Method `clearDoorCountsCache()`: the door-counts entry in memory and in
`localStorage`. -/
def clearDoorCountsCache (w : World) : World :=
  { svc := { w.svc with doorCountsMemoryCache := .null, doorCountsMemoryCacheExpiry := none },
    localStorage :=
      (w.localStorage.removeItem DOOR_COUNTS_CACHE_KEY).removeItem DOOR_COUNTS_CACHE_EXPIRY_KEY }

/-- Method `clearAllCaches()`: `clearCache()` then `clearDoorCountsCache()`. -/
def clearAllCaches (w : World) : World :=
  clearDoorCountsCache (clearCache w)

/-- Method `getCachedDoorsHome()`: `localStorage` only. -/
def getCachedDoorsHome (J : JSON) (now : Nat) (w : World) : JsVal :=
  let cached := w.localStorage.getItem DOORS_HOME_CACHE_KEY
  let expiry := w.localStorage.getItem DOORS_HOME_CACHE_EXPIRY_KEY
  if strTruthy cached && strTruthy expiry && nowLt now (parseInt (expiry.getD "")) then
    match J.parse (cached.getD "") with
    | some v => v
    | none => .null
  else .null

/-- Method `setCachedDoorsHome(data)`. -/
def setCachedDoorsHome (J : JSON) (now : Nat) (data : JsVal) (w : World) : World :=
  let expiry := now + DOORS_HOME_CACHE_DURATION
  let st := w.localStorage.setItem DOORS_HOME_CACHE_KEY (J.stringify data)
  { w with localStorage := st.setItem DOORS_HOME_CACHE_EXPIRY_KEY (numberToString expiry) }

/-- Method `clearDoorsHomeCache()`. -/
def clearDoorsHomeCache (w : World) : World :=
  let st := w.localStorage.removeItem DOORS_HOME_CACHE_KEY
  { w with localStorage := st.removeItem DOORS_HOME_CACHE_EXPIRY_KEY }

/-- A later call `setCachedSearchResults(query, searchType, results)` made at time `now`. -/
structure LaterSet where
  now : Nat
  query : String
  searchType : String
  results : JsVal

/-- A run of later `setCachedSearchResults` calls, in order. -/
def applyLaterSets (w : World) (calls : List LaterSet) : World :=
  calls.foldl
    (fun acc call => setCachedSearchResults call.now call.query call.searchType call.results acc)
    w

end ProductCache

/-! ## `phoneUtils.js` -/

namespace PhoneUtils

/-- The object `{ contactCode, contactNumber }` returned by `parsePhoneNumber`. -/
structure PhoneParts where
  contactCode : String
  contactNumber : String
  deriving DecidableEq, Repr

/-- The expression `phoneNumber.replace(/[^\d+]/g, '')`: keeps the characters `0`-`9` and
`+`, in order. -/
def cleanNumber (phoneNumber : String) : String :=
  String.mk (phoneNumber.toList.filter (fun c => c.isDigit || c == '+'))

/-- The method `s.startsWith(pre)`. -/
def startsWith (s pre : String) : Bool := pre.toList.isPrefixOf s.toList

/-- The method `s.substring(start)`. -/
def substring (s : String) (start : Nat) : String := String.mk (s.toList.drop start)

/-- The array `countryCodes` of `parsePhoneNumber`, in its order. -/
def countryCodes : List String := ["+64", "+61", "+1", "+86", "+44", "+81"]

/-- Function `parsePhoneNumber(phoneNumber)`; `none` is a missing (`undefined`/`null`)
argument. The `for` loop returns at the first code that is a prefix. -/
def parsePhoneNumber (phoneNumber : Option String) : PhoneParts :=
  match phoneNumber with
  | none => { contactCode := "+64", contactNumber := "" }
  | some p =>
    if p = "" then { contactCode := "+64", contactNumber := "" }
    else
      let cleanNumber := cleanNumber p
      if startsWith cleanNumber "+" then
        match countryCodes.find? (fun code => startsWith cleanNumber code) with
        | some code =>
          let localNumber := substring cleanNumber code.length
          let finalLocalNumber :=
            if code = "+64" ∧ startsWith localNumber "0" = true then substring localNumber 1
            else localNumber
          { contactCode := code, contactNumber := finalLocalNumber }
        | none => { contactCode := "+64", contactNumber := cleanNumber }
      else { contactCode := "+64", contactNumber := cleanNumber }

/-- Function `formatPhoneNumber(contactCode, contactNumber)`. -/
def formatPhoneNumber (contactCode contactNumber : String) : String :=
  if contactNumber = "" then "" else contactCode ++ contactNumber

/-- Function `validatePhoneNumber(phoneNumber)`; `none` is a missing argument. -/
def validatePhoneNumber (phoneNumber : Option String) : Bool :=
  match phoneNumber with
  | none => false
  | some p =>
    if p = "" then false
    else
      let cleanNumber := cleanNumber p
      if startsWith cleanNumber "+" then decide (cleanNumber.length ≥ 8)
      else decide (cleanNumber.length ≥ 7)

/-- Number of digit characters (`0`-`9`) in a string. -/
def digitCount (s : String) : Nat := (s.toList.filter Char.isDigit).length

/-- The remainder after a country code with one leading `0` removed, if there is one. -/
def dropLeadingZero : List Char → List Char
  | [] => []
  | c :: rest => if c = '0' then rest else c :: rest

end PhoneUtils

/-! ## `nameFormatter.js` -/

namespace NameFormatter

/-- A JavaScript string: its sequence of UTF-16 code units (numbers below 65536), which is
what `split`, `charAt` and `slice` index. A character outside the Basic Multilingual Plane
is two units: a high surrogate (`0xD800`-`0xDBFF`) followed by a low surrogate
(`0xDC00`-`0xDFFF`). -/
abbrev JsString := List Nat

/-- The UTF-16 code units of one character. -/
def encodeChar (c : Char) : List Nat :=
  if c.toNat < 0x10000 then [c.toNat]
  else [0xD800 + (c.toNat - 0x10000) / 0x400, 0xDC00 + (c.toNat - 0x10000) % 0x400]

/-- The JavaScript string of a text: the UTF-16 code units of its characters. -/
def utf16 (s : String) : JsString := s.toList.flatMap encodeChar

/-- The method `s.split(separator)` for a separator that matches exactly one code unit
(the string `'@'`, the character class `/[._-]/`): the pieces of `s` between the matches,
in order; a string without a match gives the one piece `s`. -/
def split (isSep : Nat → Bool) : JsString → List JsString
  | [] => [[]]
  | u :: us =>
    if isSep u then [] :: split isSep us
    else
      match split isSep us with
      | [] => [[u]]
      | piece :: pieces => (u :: piece) :: pieces

/-- The separator `'@'`. -/
def isAt (u : Nat) : Bool := u == '@'.toNat

/-- The regular expression `/[._-]/`: one of the code units of `.`, `_`, `-`. -/
def isNameSeparator (u : Nat) : Bool := u == '.'.toNat || u == '_'.toNat || u == '-'.toNat

/-- The method `s.charAt(i)`: the string of the one code unit at index `i`, or `''`. -/
def charAt (s : JsString) (i : Nat) : JsString := (s.drop i).take 1

/-- The method `s.slice(start)` for a start index `start ≥ 0`: the code units from index
`start` on. -/
def slice (s : JsString) (start : Nat) : JsString := s.drop start

/-- The method `parts.join(sep)`. -/
def join (sep : JsString) : List JsString → JsString
  | [] => []
  | [s] => s
  | s :: rest => s ++ sep ++ join sep rest

/-- Function `formatUserName(email)`; `none` is a missing (`undefined`/`null`) argument.
The platform method `String.prototype.toUpperCase` is the parameter `toUpperCase`. -/
def formatUserName (toUpperCase : JsString → JsString) (email : Option JsString) :
    JsString :=
  match email with
  | none => utf16 "User"
  | some email =>
    if email = [] then utf16 "User"
    else
      let name := (split isAt email).headD []
      let parts := split isNameSeparator name
      join (utf16 " ") (parts.map (fun part => toUpperCase (charAt part 0) ++ slice part 1))

/-- A code unit is a high surrogate. -/
def isHighSurrogate (u : Nat) : Bool := decide (0xD800 ≤ u) && decide (u ≤ 0xDBFF)

/-- A code unit is a low surrogate. -/
def isLowSurrogate (u : Nat) : Bool := decide (0xDC00 ≤ u) && decide (u ≤ 0xDFFF)

/-- Number of code units of the first character of a string: two for a surrogate pair, one
for any other unit, none for the empty string. -/
def firstCharLength : JsString → Nat
  | [] => 0
  | [_] => 1
  | h :: l :: _ => if isHighSurrogate h && isLowSurrogate l then 2 else 1

/-- The text before the first `@` of a string (the whole string when it has no `@`). -/
def beforeFirstAt (email : JsString) : JsString :=
  email.takeWhile (fun u => u ≠ '@'.toNat)

/-- A part with its first character upper-cased and the rest unchanged. -/
def capitalizeFirst (toUpperCase : JsString → JsString) (part : JsString) : JsString :=
  toUpperCase (part.take (firstCharLength part)) ++ part.drop (firstCharLength part)

/-- The claim's description of `formatUserName` on a non-empty email: the text before the
first `@`, split at every `.`, `_` and `-`, each part with its first character upper-cased,
the parts joined by single spaces. -/
def formatUserNameSpec (toUpperCase : JsString → JsString) (email : JsString) : JsString :=
  join (utf16 " ") (((beforeFirstAt email).splitOnP isNameSeparator).map
    (capitalizeFirst toUpperCase))

/-- Upper-casing of one code unit of the Basic Multilingual Plane in `sampleUpper`: the
ASCII letters. -/
def upperAscii (u : Nat) : Nat :=
  if 'a'.toNat ≤ u ∧ u ≤ 'z'.toNat then u - 32 else u

/-- Upper-casing in `sampleUpper` of the code units after a unit `prev`: a low surrogate
`0xDC28`-`0xDC4F` right after the high surrogate `0xD801` moves down by `0x28`; any other
unit is upper-cased as an ASCII letter or left as it is. -/
def sampleUpperFrom (prev : Nat) : JsString → JsString
  | [] => []
  | u :: us =>
    (if prev = 0xD801 ∧ 0xDC28 ≤ u ∧ u ≤ 0xDC4F then u - 0x28 else upperAscii u) ::
      sampleUpperFrom u us

/-- A fragment of `String.prototype.toUpperCase` for running the model: it agrees with the
platform on ASCII text, on the Deseret small letters U+10428-U+1044F (the pairs
`0xD801 0xDC28`-`0xD801 0xDC4F`, upper-cased to `0xD801 0xDC00`-`0xD801 0xDC27`), and on
lone surrogates, which are left as they are. -/
def sampleUpper (s : JsString) : JsString := sampleUpperFrom 0 s

end NameFormatter

/-! ## `errorHelper.js` -/

namespace ErrorHelper

/-- What a `throw` raises here: `new Error(message)`, or the `TypeError` of reading a
property of `null`/`undefined`. Both are instances of `Error`. -/
inductive Thrown where
  | error (message : String)
  | typeError
  deriving DecidableEq, Repr

/-- The abstract operations `ToString` and `ToNumber` of the platform, on the values that
can occur as a message or a status (`none` is `NaN`). -/
structure Coercions where
  toStr : JsVal → String
  toNumber : JsVal → Option Int

/-- Field lookup in the field list of an object. -/
def lookupField : List (String × JsVal) → String → JsVal
  | [], _ => .undefined
  | (k, v) :: rest, name => if k = name then v else lookupField rest name

/-- Property read `v.name`: throws a `TypeError` on `null`/`undefined`; a property that is
not there reads as `undefined`. -/
def getProp (v : JsVal) (name : String) : Except Thrown JsVal :=
  match v with
  | .prim .undefined => .error .typeError
  | .prim .null => .error .typeError
  | .obj fields => .ok (lookupField fields name)
  | _ => .ok .undefined

/-- Optional chaining `v?.name`: `undefined` on `null`/`undefined`. -/
def getPropOpt (v : JsVal) (name : String) : JsVal :=
  match v with
  | .obj fields => lookupField fields name
  | _ => .undefined

/-- Strict equality `v === n` with a number literal `n`. -/
def strictEqNum (v : JsVal) (n : Int) : Bool :=
  match v with
  | .prim (.num m) => m == n
  | _ => false

/-- The comparison `v >= n` with a number literal `n`: `ToNumber(v) ≥ n`, false on `NaN`. -/
def geNum (C : Coercions) (v : JsVal) (n : Int) : Bool :=
  match C.toNumber v with
  | some m => decide (n ≤ m)
  | none => false

/-- Function `handleApiError(error, context = '')`. The result `Except.ok` would be a normal
return, `Except.error` is a `throw`. The logging under `import.meta.env.DEV` writes to the
console only and is left out. -/
def handleApiError (C : Coercions) (error : JsVal) (context : String) :
    Except Thrown Unit := do
  let response ← getProp error "response"
  let responseMessage := getPropOpt (getPropOpt response "data") "message"
  let baseMessage ←
    if responseMessage.truthy then pure responseMessage
    else do
      let message ← getProp error "message"
      pure (if message.truthy then message else JsVal.prim (.str "An unknown error occurred"))
  let response2 ← getProp error "response"
  let status := getPropOpt response2 "status"
  let contextPrefix := if context ≠ "" then "[" ++ context ++ "] " else ""
  let errorMessage := contextPrefix ++ C.toStr baseMessage ++
    (if status.truthy then " (Status: " ++ C.toStr status ++ ")" else "")
  if strictEqNum status 401 then
    throw (Thrown.error "Authentication required. Please log in again.")
  if strictEqNum status 403 then
    throw (Thrown.error "You do not have permission to perform this action.")
  if strictEqNum status 404 then
    throw (Thrown.error "The requested resource was not found.")
  if geNum C status 500 then
    throw (Thrown.error "A server error occurred. Please try again later.")
  throw (Thrown.error errorMessage)

/-- The standard coercions on the values used in the examples: numbers print in decimal,
strings are themselves, `undefined` is `NaN`. -/
def sampleCoercions : Coercions where
  toStr := fun v =>
    match v with
    | .prim (.str s) => s
    | .prim (.num n) => toString n
    | .prim .undefined => "undefined"
    | .prim .null => "null"
    | .prim (.bool true) => "true"
    | .prim (.bool false) => "false"
    | .arr _ => ""
    | .obj _ => "[object Object]"
  toNumber := fun v =>
    match v with
    | .prim (.num n) => some n
    | .prim .null => some 0
    | .prim (.bool true) => some 1
    | .prim (.bool false) => some 0
    | _ => none

end ErrorHelper

/-! ## `hooks/useTab.js` and `contexts/TabContext.jsx` -/

namespace TabContext

/-- The constant `EXCLUDED_PATHS` of `useTab.js`: paths that do not need tabs. -/
def EXCLUDED_PATHS : List String := ["/login", "/"]

/-- A tab object `{ id, path, title, timestamp, isFromNavigation }`. -/
structure Tab where
  id : Nat
  path : String
  title : String
  timestamp : String
  isFromNavigation : Bool
  deriving DecidableEq, Repr

/-- The value of `navigationTypeRef.current`: `'tab'` or `'navigation'`. -/
inductive NavigationType where
  | tab
  | navigation
  deriving DecidableEq, Repr

/-- The state `addTab` acts on: the React states `tabs` and `activeTab` (`none` is `null`)
of `TabProvider`, and the navigation-type marker of the page-state context. -/
structure TabState where
  tabs : List Tab
  activeTab : Option Nat
  navigationType : NavigationType
  deriving DecidableEq, Repr

/-- The initial state: `useState([])`, `useState(null)`, `useRef('tab')`. -/
def TabState.initial : TabState :=
  { tabs := [], activeTab := none, navigationType := .tab }

/-- Callback `addTab(path, title, isFromNavigation = false)`. `now` is the value of
`Date.now()` and `timestamp` the value of `new Date().toISOString()` read when the tab is
built; the updater passed to `setTabs` runs on the current `tabs`. -/
def addTab (now : Nat) (timestamp : String) (path title : String) (isFromNavigation : Bool)
    (s : TabState) : TabState :=
  if EXCLUDED_PATHS.contains path then s
  else
    let navigationType := if isFromNavigation then NavigationType.navigation else .tab
    match s.tabs.find? (fun tab => tab.path == path) with
    | some existingTab =>
      { tabs := s.tabs, activeTab := some existingTab.id, navigationType := navigationType }
    | none =>
      let newTab : Tab :=
        { id := now, path := path, title := title, timestamp := timestamp,
          isFromNavigation := isFromNavigation }
      { tabs := s.tabs ++ [newTab], activeTab := some newTab.id,
        navigationType := navigationType }

/-- Callback `getActiveTabInfo()`: the first tab whose id is `activeTab`; `none` is
`undefined`. -/
def getActiveTabInfo (s : TabState) : Option Tab :=
  s.tabs.find? (fun tab => some tab.id == s.activeTab)

end TabContext

/-! ## `authService.js` -/

namespace AuthService

/-- The method `s.startsWith(pre)`. -/
def startsWith (s pre : String) : Bool := pre.toList.isPrefixOf s.toList

/-- The call `Object.keys(localStorage)`: the stored keys. -/
def keys (st : Storage) : List String := st.map Prod.fst

/-- The filter of `logoutUser` that selects the user-specific chat keys. -/
def isChatKey (key : String) : Bool :=
  startsWith key "chatHistory_" || startsWith key "currentConversationId_" ||
    startsWith key "currentMessage_"

/-- The loop `chatKeys.forEach(key => localStorage.removeItem(key))`. -/
def removeAll (st : Storage) (ks : List String) : Storage :=
  ks.foldl (fun acc key => acc.removeItem key) st

/-- Function `logoutUser()`, on `localStorage`. `fetchFails` says whether the awaited
`fetch` of the backend logout rejects: the inner `catch` swallows the rejection, so both
outcomes continue to the `finally` block (nothing else touches `localStorage` while the
request is awaited). -/
def logoutUser (fetchFails : Bool) (st : Storage) : Storage :=
  let allKeys := keys st
  let chatKeys := allKeys.filter isChatKey
  let afterChat := removeAll st chatKeys
  let afterFetch := if fetchFails then afterChat else afterChat
  ((afterFetch.removeItem "authToken").removeItem "refreshToken").removeItem "userInfo"

/-- Function `isAuthenticated()`: `!!localStorage.getItem('authToken')`. -/
def isAuthenticated (st : Storage) : Bool :=
  strTruthy (st.getItem "authToken")

end AuthService

/-! ## `components/DocumentManagement.jsx` -/

namespace DocumentManagement

/-- A file object of the S3 listing, as far as the component reads it. -/
structure S3File where
  name : String
  size : Nat
  lastModified : String
  deriving DecidableEq, Repr

/-- The state `pageSize`: `useState(10)` without a setter. -/
def pageSize : Nat := 10

/-- The method `s.includes(sub)`: `sub` occurs in `s` as a substring. -/
def includes (s sub : String) : Bool :=
  s.toList.tails.any (fun t => sub.toList.isPrefixOf t)

/-- The method `list.slice(start, end)`: a negative index counts from the end, and both
indices are clamped to the list. -/
def slice {α : Type} (l : List α) (start stop : Int) : List α :=
  let len : Int := l.length
  let lo := if start < 0 then max (len + start) 0 else min start len
  let hi := if stop < 0 then max (len + stop) 0 else min stop len
  (l.take hi.toNat).drop lo.toNat

/-- The expression `Math.ceil(n / d)` for natural numbers `n` and `d > 0`. -/
def ceilDiv (n d : Nat) : Nat := (n + d - 1) / d

/-- The constant `filteredFiles`: with a non-empty search term, the files whose lower-cased
name includes the lower-cased term; otherwise all files. The platform method
`String.prototype.toLowerCase` is the parameter `toLowerCase`. -/
def filteredFiles (toLowerCase : String → String) (allFiles : List S3File)
    (searchTerm : String) : List S3File :=
  if searchTerm ≠ "" then
    allFiles.filter (fun file => includes (toLowerCase file.name) (toLowerCase searchTerm))
  else allFiles

/-- The constant `files`: the slice of the filtered list shown on page `currentPage`. -/
def files (filtered : List S3File) (currentPage : Int) : List S3File :=
  let startIndex := (currentPage - 1) * (pageSize : Int)
  let endIndex := startIndex + (pageSize : Int)
  slice filtered startIndex endIndex

/-- The constant `totalPages`: `Math.ceil(filteredFiles.length / pageSize)`. -/
def totalPages (filtered : List S3File) : Nat := ceilDiv filtered.length pageSize

/-- Lower-casing of the ASCII letters, for running the model on ASCII inputs. -/
def asciiLower (s : String) : String := String.mk (s.toList.map Char.toLower)

end DocumentManagement

/-! ## Auxiliary definitions for the proofs -/

/-- The step of reading one decimal digit. -/
def decStep (a : Nat) (c : Char) : Nat := a * 10 + (c.toNat - '0'.toNat)

/-- A character is one of the ten decimal digit characters. -/
def IsDecChar (c : Char) : Prop := ∃ d, d < 10 ∧ c = Nat.digitChar d

/-- A small instance of `JSON` for running the model on concrete inputs: it agrees with the
platform on `null`, the booleans, `0` and the empty array, and rejects every other text. -/
def miniJSON : JSON where
  stringify := fun v =>
    match v with
    | .prim (.bool true) => "true"
    | .prim (.bool false) => "false"
    | .prim (.num 0) => "0"
    | .arr [] => "[]"
    | _ => "null"
  parse := fun s =>
    if s = "null" then some .null
    else if s = "true" then some (.prim (.bool true))
    else if s = "false" then some (.prim (.bool false))
    else if s = "0" then some (.prim (.num 0))
    else if s = "[]" then some (.arr [])
    else none

/-- A fresh page: a new service instance and an empty `localStorage`. -/
def ProductCache.World.fresh : ProductCache.World :=
  { svc := ProductCache.ProductCacheService.new, localStorage := [] }

/-! ## Lemmas: `localStorage` -/

theorem Storage.getItem_setItem_same (st : Storage) (k v : String) :
    (st.setItem k v).getItem k = some v := by
  induction st with
  | nil => simp [Storage.setItem, Storage.getItem]
  | cons kv rest ih =>
    obtain ⟨k0, v0⟩ := kv
    by_cases h : k0 = k
    · simp [Storage.setItem, Storage.getItem, h]
    · simp [Storage.setItem, Storage.getItem, h, ih]

theorem Storage.getItem_setItem_ne (st : Storage) (k v key : String) (h : k ≠ key) :
    (st.setItem k v).getItem key = st.getItem key := by
  induction st with
  | nil => simp [Storage.setItem, Storage.getItem, h]
  | cons kv rest ih =>
    obtain ⟨k0, v0⟩ := kv
    by_cases h0 : k0 = k
    · subst h0
      simp [Storage.setItem, Storage.getItem, h]
    · by_cases h1 : k0 = key
      · subst h1
        simp [Storage.setItem, Storage.getItem, h0]
      · simp [Storage.setItem, Storage.getItem, h0, h1, ih]

theorem Storage.getItem_removeItem_same (st : Storage) (k : String) :
    (st.removeItem k).getItem k = none := by
  induction st with
  | nil => simp [Storage.removeItem, Storage.getItem]
  | cons kv rest ih =>
    obtain ⟨k0, v0⟩ := kv
    by_cases h : k0 = k
    · simpa [Storage.removeItem, List.filter, h] using ih
    · simpa [Storage.removeItem, List.filter, h, Storage.getItem] using ih

theorem Storage.getItem_removeItem_ne (st : Storage) (k key : String) (h : k ≠ key) :
    (st.removeItem k).getItem key = st.getItem key := by
  induction st with
  | nil => simp [Storage.removeItem, Storage.getItem]
  | cons kv rest ih =>
    obtain ⟨k0, v0⟩ := kv
    by_cases h0 : k0 = k
    · subst h0
      simpa [Storage.removeItem, List.filter, Storage.getItem, h] using ih
    · by_cases h1 : k0 = key
      · subst h1
        simp [Storage.removeItem, List.filter, Storage.getItem, h0]
      · simpa [Storage.removeItem, List.filter, Storage.getItem, h0, h1] using ih

/-! ## Lemmas: `parseInt` reads back what `toString` wrote -/

theorem digitChar_spec (d : Nat) (h : d < 10) :
    (Nat.digitChar d).isDigit = true ∧ (Nat.digitChar d).toNat - '0'.toNat = d ∧
      isStrWhiteSpace (Nat.digitChar d) = false ∧ Nat.digitChar d ≠ '-' ∧
      Nat.digitChar d ≠ '+' ∧ Nat.digitChar d ≠ 'x' ∧ Nat.digitChar d ≠ 'X' := by
  interval_cases d <;> decide

theorem toDigitsCore_spec (fuel : Nat) :
    ∀ n ds, n < fuel → ∃ pre, Nat.toDigitsCore 10 fuel n ds = pre ++ ds ∧ pre ≠ [] ∧
      (∀ c ∈ pre, IsDecChar c) ∧ pre.foldl decStep 0 = n := by
  induction fuel with
  | zero => intro n ds h; omega
  | succ fuel ih =>
    intro n ds h
    have hd : n % 10 < 10 := Nat.mod_lt _ (by decide)
    have hval := (digitChar_spec (n % 10) hd).2.1
    by_cases h0 : n / 10 = 0
    · refine ⟨[Nat.digitChar (n % 10)], ?_, by simp, ?_, ?_⟩
      · simp [Nat.toDigitsCore, h0]
      · intro c hc
        simp only [List.mem_singleton] at hc
        exact ⟨n % 10, hd, hc⟩
      · simp only [List.foldl, decStep, hval]
        omega
    · have hlt : n / 10 < fuel := by omega
      obtain ⟨pre, hpre, _, hall, hfold⟩ := ih (n / 10) (Nat.digitChar (n % 10) :: ds) hlt
      refine ⟨pre ++ [Nat.digitChar (n % 10)], ?_, by simp, ?_, ?_⟩
      · simp [Nat.toDigitsCore, h0, hpre]
      · intro c hc
        rcases List.mem_append.mp hc with hc | hc
        · exact hall c hc
        · simp only [List.mem_singleton] at hc
          exact ⟨n % 10, hd, hc⟩
      · rw [List.foldl_append, hfold]
        simp only [List.foldl, decStep, hval]
        omega

theorem readDigits_dec (l : List Char) (hall : ∀ c ∈ l, IsDecChar c) :
    ∀ acc : Nat, readDigits 10 (some acc) l = some (l.foldl decStep acc) := by
  induction l with
  | nil => intro acc; rfl
  | cons c cs ih =>
    intro acc
    obtain ⟨d, hd, rfl⟩ := hall c (List.mem_cons_self _ _)
    have hs := digitChar_spec d hd
    have hrest : ∀ c ∈ cs, IsDecChar c := fun c hc => hall c (List.mem_cons_of_mem _ hc)
    simp only [readDigits, digitValue, hs.1, if_true, Option.getD_some, List.foldl]
    exact ih hrest _

theorem readDigits_dec_none (l : List Char) (hne : l ≠ []) (hall : ∀ c ∈ l, IsDecChar c) :
    readDigits 10 none l = some (l.foldl decStep 0) := by
  cases l with
  | nil => exact absurd rfl hne
  | cons c cs =>
    obtain ⟨d, hd, rfl⟩ := hall c (List.mem_cons_self _ _)
    have hs := digitChar_spec d hd
    have hrest : ∀ c ∈ cs, IsDecChar c := fun c hc => hall c (List.mem_cons_of_mem _ hc)
    simp only [readDigits, digitValue, hs.1, if_true, Option.getD_none, List.foldl]
    exact readDigits_dec cs hrest _

theorem parseIntSigned_dec (l : List Char) (hne : l ≠ []) (hall : ∀ c ∈ l, IsDecChar c) :
    parseIntSigned (l.dropWhile isStrWhiteSpace) = some ((l.foldl decStep 0 : Nat) : Int) := by
  cases l with
  | nil => exact absurd rfl hne
  | cons c cs =>
    obtain ⟨d, hd, hc⟩ := hall c (List.mem_cons_self _ _)
    have hs := digitChar_spec d hd
    rw [← hc] at hs
    have hbody : parseIntBody (c :: cs) = some ((c :: cs).foldl decStep 0) := by
      cases cs with
      | nil => exact readDigits_dec_none [c] (by simp) hall
      | cons c1 cs1 =>
        obtain ⟨d1, hd1, hc1⟩ := hall c1 (by simp)
        have hs1 := digitChar_spec d1 hd1
        rw [← hc1] at hs1
        have hx : ¬ (c = '0' ∧ (c1 = 'x' ∨ c1 = 'X')) := by
          rintro ⟨_, h | h⟩
          · exact hs1.2.2.2.2.2.1 h
          · exact hs1.2.2.2.2.2.2 h
        simp only [parseIntBody, hx, if_false]
        exact readDigits_dec_none _ (by simp) hall
    simp only [List.dropWhile, hs.2.2.1, parseIntSigned, hs.2.2.2.1, hs.2.2.2.2.1, if_false,
      hbody, Option.map_some']

theorem parseInt_numberToString (n : Nat) : parseInt (numberToString n) = some (n : Int) := by
  obtain ⟨pre, hpre, hne, hall, hfold⟩ := toDigitsCore_spec (n + 1) n [] (Nat.lt_succ_self n)
  have hl : (numberToString n).toList = pre := by
    simp [numberToString, Nat.repr, Nat.toDigits, hpre, List.asString]
  rw [parseInt, hl, parseIntSigned_dec pre hne hall, hfold]

theorem numberToString_ne_empty (n : Nat) : numberToString n ≠ "" := by
  obtain ⟨pre, hpre, hne, _, _⟩ := toDigitsCore_spec (n + 1) n [] (Nat.lt_succ_self n)
  intro h
  have hl : (numberToString n).toList = pre := by
    simp [numberToString, Nat.repr, Nat.toDigits, hpre, List.asString]
  rw [h] at hl
  exact hne hl.symm

namespace ProductCache

/-! ## Products cache -/

theorem setCachedProducts_getItem_data (J : JSON) (t : Nat) (d : JsVal) (w : World) :
    (setCachedProducts J t d w).localStorage.getItem PRODUCT_CACHE_KEY = some (J.stringify d) := by
  have hk : PRODUCT_CACHE_EXPIRY_KEY ≠ PRODUCT_CACHE_KEY := by decide
  simp only [setCachedProducts]
  rw [Storage.getItem_setItem_ne _ _ _ _ hk, Storage.getItem_setItem_same]

theorem setCachedProducts_getItem_expiry (J : JSON) (t : Nat) (d : JsVal) (w : World) :
    (setCachedProducts J t d w).localStorage.getItem PRODUCT_CACHE_EXPIRY_KEY =
      some (numberToString (t + PRODUCT_CACHE_DURATION)) := by
  simp only [setCachedProducts]
  rw [Storage.getItem_setItem_same]

theorem nowLt_some (now : Nat) (n : Nat) : nowLt now (some (n : Int)) = decide (now < n) := by
  simp [nowLt]

/-- What `getCachedProducts` returns when the memory cache is not usable and both keys are
in `localStorage`, the expiry written by `toString`. -/
theorem getCachedProducts_of_storage (J : JSON) (now : Nat) (w : World)
    (hmem : (w.svc.memoryCache.truthy && numTruthy w.svc.memoryCacheExpiry
      && nowLt now w.svc.memoryCacheExpiry) = false)
    (data : String) (e : Nat)
    (hd : w.localStorage.getItem PRODUCT_CACHE_KEY = some data)
    (he : w.localStorage.getItem PRODUCT_CACHE_EXPIRY_KEY = some (numberToString e)) :
    (getCachedProducts J now w).1 =
      if data ≠ "" ∧ now < e then (J.parse data).getD .null else .null := by
  unfold getCachedProducts
  rw [hmem]
  simp only [hd, he, Option.getD_some, parseInt_numberToString, nowLt_some, strTruthy]
  by_cases h1 : data = ""
  · simp [h1]
  · by_cases h2 : now < e
    · have h3 := numberToString_ne_empty e
      cases J.parse data <;> simp [h1, h2, h3]
    · simp [h1, h2]

/-- What `getCachedProducts` returns when the memory cache is not usable and one of the two
keys is missing from `localStorage`. -/
theorem getCachedProducts_of_missing (J : JSON) (now : Nat) (w : World)
    (hmem : (w.svc.memoryCache.truthy && numTruthy w.svc.memoryCacheExpiry
      && nowLt now w.svc.memoryCacheExpiry) = false)
    (h : w.localStorage.getItem PRODUCT_CACHE_KEY = none ∨
      w.localStorage.getItem PRODUCT_CACHE_EXPIRY_KEY = none) :
    (getCachedProducts J now w).1 = .null := by
  unfold getCachedProducts
  rw [hmem]
  rcases h with h | h <;> simp [h, strTruthy]

theorem reload_memory_unusable (now : Nat) (w : World) :
    (w.reload.svc.memoryCache.truthy && numTruthy w.reload.svc.memoryCacheExpiry
      && nowLt now w.reload.svc.memoryCacheExpiry) = false := by
  simp [World.reload, ProductCacheService.new, numTruthy]

/-- C1. After `setCachedProducts(d)` at time `t`, `getCachedProducts()` at a time
`t' < t + 10 800 000` (in particular for `t ≤ t'`) returns `d`, for every value `d` that is
JSON-serialisable, that is, `JSON.stringify(d)` is a non-empty text that `JSON.parse` reads
back as `d`: on the same instance, and on a new instance over the same `localStorage`
(page reload). -/
theorem getCachedProducts_fresh_entry (J : JSON) (w : World) (d : JsVal) (t t' : Nat)
    (hne : J.stringify d ≠ "") (hrt : J.parse (J.stringify d) = some d)
    (h2 : t' < t + 10800000) :
    (getCachedProducts J t' (setCachedProducts J t d w)).1 = d ∧
      (getCachedProducts J t' (setCachedProducts J t d w).reload).1 = d := by
  have hD : PRODUCT_CACHE_DURATION = 10800000 := by decide
  have hstore : ∀ w' : World,
      (w'.svc.memoryCache.truthy && numTruthy w'.svc.memoryCacheExpiry
        && nowLt t' w'.svc.memoryCacheExpiry) = false →
      w'.localStorage = (setCachedProducts J t d w).localStorage →
      (getCachedProducts J t' w').1 = d := by
    intro w' hmem hls
    have hd := setCachedProducts_getItem_data J t d w
    have he := setCachedProducts_getItem_expiry J t d w
    rw [← hls] at hd he
    rw [getCachedProducts_of_storage J t' w' hmem _ _ hd he, hD, if_pos ⟨hne, h2⟩, hrt]
    rfl
  refine ⟨?_, hstore _ (reload_memory_unusable t' _) rfl⟩
  by_cases hmem : ((setCachedProducts J t d w).svc.memoryCache.truthy
      && numTruthy (setCachedProducts J t d w).svc.memoryCacheExpiry
      && nowLt t' (setCachedProducts J t d w).svc.memoryCacheExpiry) = true
  · unfold getCachedProducts
    rw [if_pos hmem]
    rfl
  · exact hstore _ (by simpa using hmem) rfl

/-- Witness of C1: the empty array cached at time 1000 and read at time 5000. -/
theorem getCachedProducts_fresh_entry_witness :
    (getCachedProducts miniJSON 5000 (setCachedProducts miniJSON 1000 (.arr []) World.fresh)).1
        = .arr [] ∧
      (getCachedProducts miniJSON 5000
        (setCachedProducts miniJSON 1000 (.arr []) World.fresh).reload).1 = .arr [] :=
  getCachedProducts_fresh_entry miniJSON World.fresh (.arr []) 1000 5000 (by decide) rfl
    (by decide)

/-- C2. After `setCachedProducts(d)` at time `t`, `getCachedProducts()` at a time
`t' ≥ t + 10 800 000` returns `null`: on the same instance (memory cache, then
`localStorage`), and on a new instance over the same `localStorage`. -/
theorem getCachedProducts_expired_entry (J : JSON) (w : World) (d : JsVal) (t t' : Nat)
    (h : t + 10800000 ≤ t') :
    (getCachedProducts J t' (setCachedProducts J t d w)).1 = .null ∧
      (getCachedProducts J t' (setCachedProducts J t d w).reload).1 = .null := by
  have hD : PRODUCT_CACHE_DURATION = 10800000 := by decide
  have hlt : ¬ t' < t + 10800000 := by omega
  have hstore : ∀ w' : World,
      (w'.svc.memoryCache.truthy && numTruthy w'.svc.memoryCacheExpiry
        && nowLt t' w'.svc.memoryCacheExpiry) = false →
      w'.localStorage = (setCachedProducts J t d w).localStorage →
      (getCachedProducts J t' w').1 = .null := by
    intro w' hmem hls
    have hd := setCachedProducts_getItem_data J t d w
    have he := setCachedProducts_getItem_expiry J t d w
    rw [← hls] at hd he
    rw [getCachedProducts_of_storage J t' w' hmem _ _ hd he, hD, if_neg (fun hc => hlt hc.2)]
  refine ⟨hstore _ ?_ rfl, hstore _ (reload_memory_unusable t' _) rfl⟩
  simp only [setCachedProducts, nowLt_some, hD, decide_eq_false hlt, Bool.and_false]

/-- Witness of C2: an entry cached at time 1000 and read exactly three hours later. -/
theorem getCachedProducts_expired_entry_witness :
    (getCachedProducts miniJSON 10801000
        (setCachedProducts miniJSON 1000 (.arr []) World.fresh)).1 = .null ∧
      (getCachedProducts miniJSON 10801000
        (setCachedProducts miniJSON 1000 (.arr []) World.fresh).reload).1 = .null :=
  getCachedProducts_expired_entry miniJSON World.fresh (.arr []) 1000 10801000 (by decide)

theorem removeItem_keys (st : Storage) (k : String) :
    k ∉ (st.removeItem k).map Prod.fst := by
  simp [Storage.removeItem, List.mem_map, List.mem_filter]

theorem removeItem_keys_mono (st : Storage) (k key : String)
    (h : key ∉ st.map Prod.fst) : key ∉ (st.removeItem k).map Prod.fst := by
  intro hc
  apply h
  simp only [Storage.removeItem, List.mem_map, List.mem_filter] at hc ⊢
  obtain ⟨a, ⟨ha, _⟩, rfl⟩ := hc
  exact ⟨a, ha, rfl⟩

/-- C3. After `clearCache()`, in every state and at every time, `getCachedProducts()`
returns `null`, and `localStorage` holds neither `product_cache` nor
`suggested_products_cache_expiry`. -/
theorem clearCache_clears_products (J : JSON) (w : World) (now : Nat) :
    (getCachedProducts J now (clearCache w)).1 = .null ∧
      PRODUCT_CACHE_KEY ∉ (clearCache w).localStorage.map Prod.fst ∧
      PRODUCT_CACHE_EXPIRY_KEY ∉ (clearCache w).localStorage.map Prod.fst := by
  refine ⟨?_, ?_, ?_⟩
  · apply getCachedProducts_of_missing
    · simp [clearCache, numTruthy]
    · right
      simp only [clearCache]
      exact Storage.getItem_removeItem_same _ _
  · exact removeItem_keys_mono _ _ _ (removeItem_keys _ _)
  · exact removeItem_keys _ _

/-! ## Clearing and the other caches -/

/-- What `getCachedDoorCounts` returns when the memory cache is not usable and one of the
two keys is missing from `localStorage`. -/
theorem getCachedDoorCounts_of_missing (J : JSON) (now : Nat) (w : World)
    (hmem : (w.svc.doorCountsMemoryCache.truthy && numTruthy w.svc.doorCountsMemoryCacheExpiry
      && nowLt now w.svc.doorCountsMemoryCacheExpiry) = false)
    (h : w.localStorage.getItem DOOR_COUNTS_CACHE_KEY = none ∨
      w.localStorage.getItem DOOR_COUNTS_CACHE_EXPIRY_KEY = none) :
    (getCachedDoorCounts J now w).1 = .null := by
  unfold getCachedDoorCounts
  rw [hmem]
  rcases h with h | h <;> simp [h, strTruthy]

/-- The part of "clear all caches" that `clearAllCaches` does: afterwards
`getCachedProducts()` and `getCachedDoorCounts()` return `null`. -/
theorem clearAllCaches_clears_products_and_door_counts (J : JSON) (w : World) (now : Nat) :
    (getCachedProducts J now (clearAllCaches w)).1 = .null ∧
      (getCachedDoorCounts J now (clearAllCaches w)).1 = .null := by
  have hk1 : DOOR_COUNTS_CACHE_KEY ≠ PRODUCT_CACHE_EXPIRY_KEY := by decide
  have hk2 : DOOR_COUNTS_CACHE_EXPIRY_KEY ≠ PRODUCT_CACHE_EXPIRY_KEY := by decide
  constructor
  · apply getCachedProducts_of_missing
    · simp [clearAllCaches, clearDoorCountsCache, clearCache, numTruthy]
    · right
      simp only [clearAllCaches, clearDoorCountsCache, clearCache]
      rw [Storage.getItem_removeItem_ne _ _ _ hk2, Storage.getItem_removeItem_ne _ _ _ hk1]
      exact Storage.getItem_removeItem_same _ _
  · apply getCachedDoorCounts_of_missing
    · simp [clearAllCaches, clearDoorCountsCache, numTruthy]
    · right
      simp only [clearAllCaches, clearDoorCountsCache]
      exact Storage.getItem_removeItem_same _ _

/-- C4 (the code falls short of it). `clearAllCaches()` leaves three caches in place: a
search result cached at time 0 is still returned at time 1000, a cached product detail is
still returned, and a doors-homepage list cached at time 0 is still returned at time 1000. -/
theorem clearAllCaches_leaves_caches :
    getCachedSearchResults 1000 "oak" "doors"
        (clearAllCaches (setCachedSearchResults 0 "oak" "doors" (.arr []) World.fresh))
        = .arr [] ∧
      getCachedProductDetail (.str "p1")
        (clearAllCaches (setCachedProductDetail (.str "p1") (.obj []) World.fresh))
        = .obj [] ∧
      getCachedDoorsHome miniJSON 1000
        (clearAllCaches (setCachedDoorsHome miniJSON 0 (.arr []) World.fresh))
        = .arr [] := by
  refine ⟨rfl, rfl, ?_⟩
  rfl

/-! ## Search results -/

theorem dictGet_dictSet_same (m : List (String × SearchEntry)) (k : String) (e : SearchEntry) :
    dictGet (dictSet m k e) k = some e := by
  induction m with
  | nil => simp [dictSet, dictGet]
  | cons kv rest ih =>
    obtain ⟨k0, v0⟩ := kv
    by_cases h : k0 = k
    · simp [dictSet, dictGet, h]
    · simp [dictSet, dictGet, h, ih]

theorem dictGet_dictSet_ne (m : List (String × SearchEntry)) (k key : String) (e : SearchEntry)
    (h : k ≠ key) : dictGet (dictSet m k e) key = dictGet m key := by
  induction m with
  | nil => simp [dictSet, dictGet, h]
  | cons kv rest ih =>
    obtain ⟨k0, v0⟩ := kv
    by_cases h0 : k0 = k
    · subst h0
      simp [dictSet, dictGet, h]
    · by_cases h1 : k0 = key
      · subst h1
        simp [dictSet, dictGet, h0]
      · simp [dictSet, dictGet, h0, h1, ih]

/-- A later `setCachedSearchResults` under another dictionary key does not change what
`getCachedSearchResults` returns. -/
theorem getCachedSearchResults_other_key (w : World) (q s q' s' : String) (r' : JsVal)
    (t1 t' : Nat) (hkey : searchKey q' s' ≠ searchKey q s) :
    getCachedSearchResults t' q s (setCachedSearchResults t1 q' s' r' w) =
      getCachedSearchResults t' q s w := by
  simp only [getCachedSearchResults, setCachedSearchResults]
  rw [dictGet_dictSet_ne _ _ _ _ hkey]

theorem colon_split (a b q q' : List Char) (ha : ':' ∉ a) (hb : ':' ∉ b)
    (h : a ++ ':' :: ':' :: q = b ++ ':' :: ':' :: q') : a = b ∧ q = q' := by
  induction a generalizing b with
  | nil =>
    cases b with
    | nil => simpa using h
    | cons y ys =>
      simp only [List.nil_append, List.cons_append, List.cons.injEq] at h
      exact absurd (h.1 ▸ List.mem_cons_self _ _) hb
  | cons x xs ih =>
    cases b with
    | nil =>
      simp only [List.nil_append, List.cons_append, List.cons.injEq] at h
      exact absurd (h.1 ▸ List.mem_cons_self _ _) ha
    | cons y ys =>
      simp only [List.cons_append, List.cons.injEq] at h
      obtain ⟨h1, h2⟩ := h
      have := ih ys (fun hc => ha (List.mem_cons_of_mem _ hc))
        (fun hc => hb (List.mem_cons_of_mem _ hc)) h2
      exact ⟨by rw [h1, this.1], this.2⟩

/-- Two searches whose search types contain no `:` have the same dictionary key only when
they are the same search. -/
theorem searchKey_injective (q s q' s' : String) (hs : ':' ∉ s.toList) (hs' : ':' ∉ s'.toList)
    (h : searchKey q s = searchKey q' s') : q = q' ∧ s = s' := by
  have hl := congrArg String.toList h
  simp only [searchKey, String.toList, String.data_append] at hl
  rw [List.append_assoc, List.append_assoc] at hl
  obtain ⟨h1, h2⟩ := colon_split _ _ _ _ hs hs' hl
  exact ⟨String.ext h2, String.ext h1⟩

/-- A later `setCachedSearchResults` for another search does not change what
`getCachedSearchResults` returns, when the search types contain no `:`. -/
theorem getCachedSearchResults_other_search (w : World) (q s q' s' : String) (r' : JsVal)
    (t1 t' : Nat) (hs : ':' ∉ s.toList) (hs' : ':' ∉ s'.toList) (hne : (q', s') ≠ (q, s)) :
    getCachedSearchResults t' q s (setCachedSearchResults t1 q' s' r' w) =
      getCachedSearchResults t' q s w := by
  apply getCachedSearchResults_other_key
  intro hk
  obtain ⟨h1, h2⟩ := searchKey_injective q' s' q s hs' hs hk
  exact hne (by rw [h1, h2])

/-- A get right after the set: `getCachedSearchResults(q, s)` at time `t'` returns `r` when
`t' < t + 300 000` and `null` otherwise. -/
theorem getCachedSearchResults_after_set (w : World) (q s : String) (r : JsVal) (t t' : Nat) :
    getCachedSearchResults t' q s (setCachedSearchResults t q s r w) =
      if t' < t + 300000 then r else .null := by
  have hD : SEARCH_RESULTS_DURATION = 300000 := by decide
  simp only [getCachedSearchResults, setCachedSearchResults, dictGet_dictSet_same, hD]

/-- Later sets under other dictionary keys do not change what `getCachedSearchResults`
returns. -/
theorem getCachedSearchResults_applyLaterSets (q s : String) (t' : Nat) (calls : List LaterSet) :
    ∀ w : World, (∀ call ∈ calls, searchKey call.query call.searchType ≠ searchKey q s) →
      getCachedSearchResults t' q s (applyLaterSets w calls) = getCachedSearchResults t' q s w := by
  induction calls with
  | nil => intro w _; rfl
  | cons call rest ih =>
    intro w h
    have h1 := h call (List.mem_cons_self _ _)
    have h2 : ∀ c ∈ rest, searchKey c.query c.searchType ≠ searchKey q s :=
      fun c hc => h c (List.mem_cons_of_mem _ hc)
    show getCachedSearchResults t' q s (applyLaterSets
      (setCachedSearchResults call.now call.query call.searchType call.results w) rest) = _
    rw [ih _ h2, getCachedSearchResults_other_key _ _ _ _ _ _ _ _ h1]

/-- C5 as stated fails: the searches `(':b', 'a')` and `('b', 'a:')` are different but have
the same dictionary key `a:::b`, so after `setCachedSearchResults(':b', 'a', [])` at time
1000 and the later `setCachedSearchResults('b', 'a:', {})` at time 1500,
`getCachedSearchResults(':b', 'a')` at time 2000 returns `{}` and not `[]`. -/
theorem searchResults_key_collision :
    ((":b", "a") : String × String) ≠ ("b", "a:") ∧
      2000 < 1000 + 300000 ∧
      getCachedSearchResults 2000 ":b" "a"
          (setCachedSearchResults 1500 "b" "a:" (.obj [])
            (setCachedSearchResults 1000 ":b" "a" (.arr []) World.fresh)) = .obj [] ∧
      getCachedSearchResults 2000 ":b" "a"
          (setCachedSearchResults 1500 "b" "a:" (.obj [])
            (setCachedSearchResults 1000 ":b" "a" (.arr []) World.fresh)) ≠ .arr [] := by
  have h : getCachedSearchResults 2000 ":b" "a"
      (setCachedSearchResults 1500 "b" "a:" (.obj [])
        (setCachedSearchResults 1000 ":b" "a" (.arr []) World.fresh)) = .obj [] := rfl
  refine ⟨by decide, by decide, h, ?_⟩
  rw [h]
  intro hc
  cases hc

/-- C5, amended. After `setCachedSearchResults(q, s, r)` at time `t` and any later
`setCachedSearchResults` calls, none of them for a search whose key text
`searchType::query` is that of `(q, s)`, `getCachedSearchResults(q, s)` at time `t'` returns
`r` when `t' < t + 300 000` and `null` when `t' ≥ t + 300 000`. -/
theorem searchResults_served_until_expiry (w : World) (q s : String) (r : JsVal) (t t' : Nat)
    (calls : List LaterSet)
    (hcalls : ∀ call ∈ calls, call.searchType ++ "::" ++ call.query ≠ s ++ "::" ++ q) :
    getCachedSearchResults t' q s (applyLaterSets (setCachedSearchResults t q s r w) calls) =
      if t' < t + 300000 then r else .null := by
  rw [getCachedSearchResults_applyLaterSets q s t' calls _ hcalls]
  exact getCachedSearchResults_after_set w q s r t t'

/-- Witness of C5 (amended): a later set for windows does not disturb the entry for doors. -/
theorem searchResults_served_until_expiry_witness :
    getCachedSearchResults 2000 "oak" "doors"
        (applyLaterSets (setCachedSearchResults 1000 "oak" "doors" (.arr []) World.fresh)
          [{ now := 1500, query := "oak", searchType := "windows", results := .obj [] }]) =
      if 2000 < 1000 + 300000 then .arr [] else .null :=
  searchResults_served_until_expiry World.fresh "oak" "doors" (.arr []) 1000 2000
    [{ now := 1500, query := "oak", searchType := "windows", results := .obj [] }] (by decide)

/-! ## Door counts -/

/-- C6 as stated fails: on a fresh page `setCachedDoorCounts([])` at time 1000 writes two
keys to `localStorage`. -/
theorem setCachedDoorCounts_writes_localStorage :
    (setCachedDoorCounts miniJSON 1000 (.arr []) World.fresh).localStorage =
        [("door_counts_cache", "[]"), ("door_counts_cache_expiry", "10801000")] ∧
      (setCachedDoorCounts miniJSON 1000 (.arr []) World.fresh).localStorage ≠
        World.fresh.localStorage := by
  decide

/-- C6, amended. `setCachedDoorCounts(d)` at time `now` stores `d` and the expiry
`now + 10 800 000` in the in-memory door-counts cache, leaving every other field of the
instance as it was, and persists both to `localStorage` under `door_counts_cache` and
`door_counts_cache_expiry`; every other `localStorage` key keeps its value. -/
theorem setCachedDoorCounts_effect (J : JSON) (w : World) (d : JsVal) (now : Nat)
    (key : String) (hk1 : key ≠ "door_counts_cache") (hk2 : key ≠ "door_counts_cache_expiry") :
    (setCachedDoorCounts J now d w).svc =
        { w.svc with doorCountsMemoryCache := d,
                     doorCountsMemoryCacheExpiry := some ((now + 10800000 : Nat) : Int) } ∧
      (setCachedDoorCounts J now d w).localStorage.getItem "door_counts_cache"
        = some (J.stringify d) ∧
      (setCachedDoorCounts J now d w).localStorage.getItem "door_counts_cache_expiry"
        = some (numberToString (now + 10800000)) ∧
      (setCachedDoorCounts J now d w).localStorage.getItem key = w.localStorage.getItem key := by
  have hD : DOOR_COUNTS_CACHE_DURATION = 10800000 := by decide
  have hK : DOOR_COUNTS_CACHE_KEY = "door_counts_cache" := rfl
  have hE : DOOR_COUNTS_CACHE_EXPIRY_KEY = "door_counts_cache_expiry" := rfl
  have hne : DOOR_COUNTS_CACHE_EXPIRY_KEY ≠ DOOR_COUNTS_CACHE_KEY := by decide
  rw [← hK, ← hE, ← hD]
  refine ⟨rfl, ?_, ?_, ?_⟩
  · show Storage.getItem (Storage.setItem (Storage.setItem w.localStorage DOOR_COUNTS_CACHE_KEY _)
      DOOR_COUNTS_CACHE_EXPIRY_KEY _) DOOR_COUNTS_CACHE_KEY = _
    rw [Storage.getItem_setItem_ne _ _ _ _ hne, Storage.getItem_setItem_same]
  · exact Storage.getItem_setItem_same _ _ _
  · show Storage.getItem (Storage.setItem (Storage.setItem w.localStorage DOOR_COUNTS_CACHE_KEY _)
      DOOR_COUNTS_CACHE_EXPIRY_KEY _) key = _
    rw [Storage.getItem_setItem_ne _ _ _ _ (by rw [hE]; exact Ne.symm hk2),
      Storage.getItem_setItem_ne _ _ _ _ (by rw [hK]; exact Ne.symm hk1)]

/-- Witness of C6 (amended): the key `authToken` is untouched by `setCachedDoorCounts`. -/
theorem setCachedDoorCounts_effect_witness :
    (setCachedDoorCounts miniJSON 1000 (.arr [])
        { svc := ProductCacheService.new, localStorage := [("authToken", "abc")] }).localStorage.getItem
        "authToken" = some "abc" :=
  (setCachedDoorCounts_effect miniJSON
    { svc := ProductCacheService.new, localStorage := [("authToken", "abc")] }
    (.arr []) 1000 "authToken" (by decide) (by decide)).2.2.2

/-! ## Product details -/

theorem mapGet_mapDelete_same (m : List (JsPrim × JsVal)) (k : JsPrim) :
    mapGet (mapDelete m k) k = none := by
  induction m with
  | nil => simp [mapDelete, mapGet]
  | cons kv rest ih =>
    obtain ⟨k0, v0⟩ := kv
    by_cases h : k0 = k
    · simpa [mapDelete, List.filter, h] using ih
    · simpa [mapDelete, List.filter, h, mapGet] using ih

theorem mapGet_mapDelete_ne (m : List (JsPrim × JsVal)) (k key : JsPrim) (h : k ≠ key) :
    mapGet (mapDelete m k) key = mapGet m key := by
  induction m with
  | nil => simp [mapDelete, mapGet]
  | cons kv rest ih =>
    obtain ⟨k0, v0⟩ := kv
    by_cases h0 : k0 = k
    · subst h0
      simpa [mapDelete, List.filter, mapGet, h] using ih
    · by_cases h1 : k0 = key
      · subst h1
        simp [mapDelete, List.filter, mapGet, h0]
      · simpa [mapDelete, List.filter, mapGet, h0, h1] using ih

/-- The part of C7 that holds: `clearProductDetailCache(id)` with a truthy `id` removes
that id's entry and leaves every other entry as it was. -/
theorem clearProductDetailCache_with_id (w : World) (id other : JsPrim)
    (hid : id.truthy = true) (hother : other ≠ id) :
    getCachedProductDetail id (clearProductDetailCache id w) = .undefined ∧
      getCachedProductDetail other (clearProductDetailCache id w) =
        getCachedProductDetail other w := by
  simp only [getCachedProductDetail, clearProductDetailCache, hid, if_true]
  rw [mapGet_mapDelete_same, mapGet_mapDelete_ne _ _ _ (Ne.symm hother)]
  exact ⟨rfl, rfl⟩

/-- C7 (the code falls short of it). `clearProductDetailCache()` without an id calls
`Map.delete()` and clears nothing: the detail cached for `'p1'` is still returned. -/
theorem clearProductDetailCache_without_id_keeps_entries :
    getCachedProductDetail (.str "p1")
        (clearProductDetailCache .undefined
          (setCachedProductDetail (.str "p1") (.obj []) World.fresh)) = .obj [] := by
  rfl

end ProductCache

namespace PhoneUtils

/-! ## Phone numbers -/

theorem cleanNumber_empty : cleanNumber "" = "" := by decide

theorem startsWith_mk (l pre : List Char) :
    startsWith (String.mk l) (String.mk pre) = pre.isPrefixOf l := rfl

theorem substring_mk (l : List Char) (n : Nat) : substring (String.mk l) n = String.mk (l.drop n) :=
  rfl

theorem parse_of_clean (p : String) (l : List Char) (hp : p ≠ "") (hl : cleanNumber p = String.mk l) :
    parsePhoneNumber (some p) =
      if startsWith (String.mk l) "+" then
        match countryCodes.find? (fun code => startsWith (String.mk l) code) with
        | some code =>
          { contactCode := code,
            contactNumber :=
              if code = "+64" ∧ startsWith (substring (String.mk l) code.length) "0" = true then
                substring (substring (String.mk l) code.length) 1
              else substring (String.mk l) code.length }
        | none => { contactCode := "+64", contactNumber := String.mk l }
      else { contactCode := "+64", contactNumber := String.mk l } := by
  simp only [parsePhoneNumber, hp, if_false, hl]

/-- C8. When the cleaned form of the phone number is one of the codes `+64`, `+61`, `+1`,
`+86`, `+44`, `+81` followed by a remainder, `parsePhoneNumber` returns that code as
`contactCode` and the remainder as `contactNumber`, for `+64` with one leading `0` of the
remainder removed. -/
theorem parsePhoneNumber_country_code (p code : String) (rest : List Char)
    (hcode : code ∈ countryCodes) (hclean : (cleanNumber p).toList = code.toList ++ rest) :
    parsePhoneNumber (some p) =
      { contactCode := code,
        contactNumber := String.mk (if code = "+64" then dropLeadingZero rest else rest) } := by
  have hp : p ≠ "" := by
    rintro rfl
    rw [cleanNumber_empty] at hclean
    simp only [countryCodes, List.mem_cons, List.mem_singleton, List.not_mem_nil, or_false] at hcode
    rcases hcode with rfl | rfl | rfl | rfl | rfl | rfl <;> simp at hclean
  have hl : cleanNumber p = String.mk (code.toList ++ rest) := by
    rw [← hclean]
    rfl
  rw [parse_of_clean p _ hp hl]
  simp only [countryCodes, List.mem_cons, List.mem_singleton, List.not_mem_nil, or_false] at hcode
  rcases hcode with rfl | rfl | rfl | rfl | rfl | rfl
  all_goals simp [startsWith, countryCodes, List.find?, substring, List.isPrefixOf, String.length]
  · cases rest with
    | nil => simp [dropLeadingZero]
    | cons c r =>
      by_cases hc : c = '0'
      · simp [dropLeadingZero, hc]
      · have hc' : ¬ '0' = c := fun h0 => hc h0.symm
        simp [dropLeadingZero, hc, hc']

/-- Witness of C8: `'+64 027 387 3920'` gives `+64` and `273873920`. -/
theorem parsePhoneNumber_country_code_witness :
    parsePhoneNumber (some "+64 027 387 3920") =
      { contactCode := "+64", contactNumber := "273873920" } :=
  parsePhoneNumber_country_code "+64 027 387 3920" "+64" "0273873920".toList
    (by decide) (by decide)

/-- C9. A missing or empty phone number gives `+64` and `''`; a phone number whose cleaned
form does not start with `+` gives `+64` and the cleaned form. -/
theorem parsePhoneNumber_local (p : String) (h : startsWith (cleanNumber p) "+" = false) :
    parsePhoneNumber none = { contactCode := "+64", contactNumber := "" } ∧
      parsePhoneNumber (some "") = { contactCode := "+64", contactNumber := "" } ∧
      parsePhoneNumber (some p) = { contactCode := "+64", contactNumber := cleanNumber p } := by
  refine ⟨rfl, rfl, ?_⟩
  by_cases hp : p = ""
  · subst hp
    rfl
  · simp only [parsePhoneNumber, hp, if_false, h, Bool.false_eq_true]

/-- Witness of C9: the local number `'027 387 3920'`. -/
theorem parsePhoneNumber_local_witness :
    parsePhoneNumber (some "027 387 3920") =
      { contactCode := "+64", contactNumber := "0273873920" } :=
  (parsePhoneNumber_local "027 387 3920" (by decide)).2.2

/-- The part of C10 that holds: a missing or empty input is rejected, and an accepted
input has at least 7 characters that are a digit or `+`. -/
theorem validatePhoneNumber_sound (p : String) (h : validatePhoneNumber (some p) = true) :
    validatePhoneNumber none = false ∧ validatePhoneNumber (some "") = false ∧
      7 ≤ (cleanNumber p).length := by
  refine ⟨rfl, rfl, ?_⟩
  by_cases hp : p = ""
  · subst hp
    exact absurd h (by decide)
  · simp only [validatePhoneNumber, hp, if_false] at h
    by_cases hs : startsWith (cleanNumber p) "+" = true
    · rw [if_pos hs] at h
      have := of_decide_eq_true h
      omega
    · rw [if_neg hs] at h
      exact of_decide_eq_true h

/-- C10 (the code falls short of it). `validatePhoneNumber('++++++++')` is `true` although
the string has no digit: the length test counts `+` characters as digits. The same
happens for a local number: `'12+3456'` has six digits and is accepted. -/
theorem validatePhoneNumber_accepts_without_digits :
    validatePhoneNumber (some "++++++++") = true ∧ digitCount "++++++++" = 0 ∧
      validatePhoneNumber (some "12+3456") = true ∧ digitCount "12+3456" = 6 := by
  decide

end PhoneUtils

namespace NameFormatter

/-! ## User names -/

theorem split_eq_splitOnP (p : Nat → Bool) (l : JsString) : split p l = l.splitOnP p := by
  induction l with
  | nil => rfl
  | cons c cs ih =>
    rw [List.splitOnP_cons, split, ih]
    by_cases h : p c = true
    · simp [h]
    · simp only [h, Bool.false_eq_true, if_false]
      cases hs : cs.splitOnP p with
      | nil => exact absurd hs (List.splitOnP_ne_nil _ _)
      | cons a as => rfl

theorem split_head (email : JsString) : (split isAt email).headD [] = beforeFirstAt email := by
  induction email with
  | nil => rfl
  | cons c cs ih =>
    by_cases h : c = '@'.toNat
    · simp [split, isAt, beforeFirstAt, h]
    · simp only [split, isAt, beq_iff_eq, h, if_false, beforeFirstAt, List.takeWhile, ne_eq,
        not_false_eq_true, decide_True]
      cases hs : split isAt cs with
      | nil => rw [split_eq_splitOnP] at hs; exact absurd hs (List.splitOnP_ne_nil _ _)
      | cons a as =>
        rw [hs] at ih
        simp only [List.headD_cons, beforeFirstAt] at ih ⊢
        rw [ih]

/-- What the code computes on a non-empty email, in terms of code units: each part of the
text before the first `@` has its first code unit passed through `toUpperCase`. -/
theorem formatUserName_units (toUpperCase : JsString → JsString) (email : JsString)
    (h : email ≠ []) :
    formatUserName toUpperCase (some email) =
      join (utf16 " ") (((beforeFirstAt email).splitOnP isNameSeparator).map
        (fun part => toUpperCase (part.take 1) ++ part.drop 1)) := by
  simp only [formatUserName, h, if_false, split_head]
  simp only [split_eq_splitOnP]
  rfl

theorem mem_of_mem_splitOnP (p : Nat → Bool) (l : JsString) :
    ∀ part ∈ l.splitOnP p, ∀ u ∈ part, u ∈ l := by
  induction l with
  | nil =>
    intro part hpart u hu
    simp only [List.splitOnP_nil, List.mem_singleton] at hpart
    subst hpart
    exact hu
  | cons c cs ih =>
    intro part hpart u hu
    rw [List.splitOnP_cons] at hpart
    by_cases h : p c = true
    · simp only [h, if_true, List.mem_cons] at hpart
      rcases hpart with rfl | hpart
      · cases hu
      · exact List.mem_cons_of_mem _ (ih part hpart u hu)
    · simp only [h, Bool.false_eq_true, if_false] at hpart
      cases hs : cs.splitOnP p with
      | nil => exact absurd hs (List.splitOnP_ne_nil _ _)
      | cons a as =>
        rw [hs] at hpart ih
        simp only [List.modifyHead, List.mem_cons] at hpart
        rcases hpart with rfl | hpart
        · rcases List.mem_cons.mp hu with rfl | hu'
          · exact List.mem_cons_self _ _
          · exact List.mem_cons_of_mem _ (ih a (List.mem_cons_self _ _) u hu')
        · exact List.mem_cons_of_mem _ (ih part (List.mem_cons_of_mem _ hpart) u hu)

theorem firstCharLength_of_no_high (part : JsString)
    (h : ∀ u ∈ part, isHighSurrogate u = false) :
    part.take (firstCharLength part) = part.take 1 ∧
      part.drop (firstCharLength part) = part.drop 1 := by
  cases part with
  | nil => exact ⟨rfl, rfl⟩
  | cons a t =>
    cases t with
    | nil => exact ⟨rfl, rfl⟩
    | cons b rest =>
      have ha := h a (List.mem_cons_self _ _)
      simp [firstCharLength, ha]

/-- The part of C11 that holds. For a non-empty email without a high-surrogate code unit
(in particular for every email of characters of the Basic Multilingual Plane),
`formatUserName` returns the text before the first `@`, split at every `.`, `_` and `-`,
each part with its first character upper-cased and the rest unchanged, the parts joined by
single spaces; for a missing or empty email it returns `'User'`. -/
theorem formatUserName_bmp (toUpperCase : JsString → JsString) (email : JsString)
    (h : email ≠ []) (hbmp : ∀ u ∈ email, isHighSurrogate u = false) :
    formatUserName toUpperCase (some email) = formatUserNameSpec toUpperCase email ∧
      formatUserName toUpperCase none = utf16 "User" ∧
      formatUserName toUpperCase (some []) = utf16 "User" := by
  refine ⟨?_, rfl, rfl⟩
  rw [formatUserName_units toUpperCase email h, formatUserNameSpec]
  congr 1
  apply List.map_congr_left
  intro part hpart
  have hno : ∀ u ∈ part, isHighSurrogate u = false := by
    intro u hu
    have hmem := mem_of_mem_splitOnP isNameSeparator (beforeFirstAt email) part hpart u hu
    exact hbmp u (List.takeWhile_subset _ hmem)
  obtain ⟨h1, h2⟩ := firstCharLength_of_no_high part hno
  simp only [capitalizeFirst, h1, h2]

/-- The example of C11: `'john.doe@x.com'` gives `'John Doe'`. -/
theorem formatUserName_bmp_example :
    formatUserName sampleUpper (some (utf16 "john.doe@x.com")) = utf16 "John Doe" ∧
      formatUserNameSpec sampleUpper (utf16 "john.doe@x.com") = utf16 "John Doe" := by
  decide

/-- C11 (the code falls short of it). On the email `'𐐨bc@x'`, whose first character is
the letter U+10428 (code units `0xD801 0xDC28`), `formatUserName` returns `'𐐨bc'` with the
first character not upper-cased, because `charAt(0)` is the lone high surrogate; the first
character upper-cased gives `'𐐀bc'` (U+10400). -/
theorem formatUserName_misses_non_bmp_letter :
    utf16 "𐐨bc@x" = [0xD801, 0xDC28, 0x62, 0x63, 0x40, 0x78] ∧
      formatUserName sampleUpper (some (utf16 "𐐨bc@x")) = utf16 "𐐨bc" ∧
      formatUserNameSpec sampleUpper (utf16 "𐐨bc@x") = utf16 "𐐀bc" ∧
      utf16 "𐐨bc" ≠ utf16 "𐐀bc" := by
  decide

end NameFormatter

namespace ErrorHelper

/-! ## API errors -/

/-- C12. For every error value and every context string, `handleApiError` does not return
normally: it throws, and what it throws is an `Error` (a `TypeError` exactly when the error
value itself is `null` or `undefined`). -/
theorem handleApiError_always_throws (C : Coercions) (error : JsVal) (context : String) :
    (∃ t : Thrown, handleApiError C error context = Except.error t) ∧
      (handleApiError C error context = Except.error Thrown.typeError ↔
        (error = JsVal.null ∨ error = JsVal.undefined)) := by
  cases error with
  | prim p =>
    cases p <;>
      simp [handleApiError, getProp, getPropOpt, bind, Except.bind, pure, Except.pure,
        JsVal.truthy, JsPrim.truthy, JsVal.null, JsVal.undefined, throw, throwThe,
        MonadExceptOf.throw, strictEqNum] <;>
      split_ifs <;> simp
  | arr items =>
    simp [handleApiError, getProp, getPropOpt, bind, Except.bind, pure, Except.pure,
        JsVal.truthy, JsPrim.truthy, JsVal.null, JsVal.undefined, throw, throwThe,
        MonadExceptOf.throw, strictEqNum]
    split_ifs <;> simp
  | obj fields =>
    simp only [handleApiError, getProp, bind, Except.bind, pure, Except.pure, throw, throwThe,
      MonadExceptOf.throw, JsVal.null, JsVal.undefined]
    split_ifs <;> simp

end ErrorHelper

namespace TabContext

/-! ## Tabs -/

/-- C13. `addTab` with the path `/login` or `/` leaves the tab list and the active tab (and
the rest of the state) unchanged; `addTab` with any other path that no existing tab has
appends exactly one tab, with that path and title, at the end of the list and sets
`activeTab` to its id. -/
theorem addTab_spec (now : Nat) (timestamp path title : String) (isFromNavigation : Bool)
    (s : TabState) :
    ((path = "/login" ∨ path = "/") →
        addTab now timestamp path title isFromNavigation s = s) ∧
      ((path ≠ "/login" ∧ path ≠ "/") → (∀ tab ∈ s.tabs, tab.path ≠ path) →
        ∃ newTab : Tab, newTab.path = path ∧ newTab.title = title ∧
          (addTab now timestamp path title isFromNavigation s).tabs = s.tabs ++ [newTab] ∧
          (addTab now timestamp path title isFromNavigation s).activeTab = some newTab.id) := by
  constructor
  · intro h
    have hc : path ∈ EXCLUDED_PATHS := by
      rcases h with rfl | rfl <;> decide
    simp [addTab, hc]
  · intro h hnew
    have hc : path ∉ EXCLUDED_PATHS := by
      simp [EXCLUDED_PATHS, h.1, h.2]
    have hfind : s.tabs.find? (fun tab => tab.path == path) = none := by
      rw [List.find?_eq_none]
      intro tab htab
      simpa using hnew tab htab
    refine ⟨{ id := now, path := path, title := title, timestamp := timestamp,
              isFromNavigation := isFromNavigation }, rfl, rfl, ?_, ?_⟩ <;>
      simp [addTab, hc, hfind]

/-- Witness of C13: `/login` on a state with one tab changes nothing, and `/cases` on the
same state appends a tab and activates it. -/
theorem addTab_spec_witness :
    addTab 1700 "t" "/login" "Login" false
        { tabs := [{ id := 1, path := "/home", title := "Home", timestamp := "t0",
                     isFromNavigation := false }],
          activeTab := some 1, navigationType := .tab } =
        { tabs := [{ id := 1, path := "/home", title := "Home", timestamp := "t0",
                     isFromNavigation := false }],
          activeTab := some 1, navigationType := .tab } ∧
      ∃ newTab : Tab, newTab.path = "/cases" ∧ newTab.title = "Cases" ∧
        (addTab 1700 "t" "/cases" "Cases" false
          { tabs := [{ id := 1, path := "/home", title := "Home", timestamp := "t0",
                       isFromNavigation := false }],
            activeTab := some 1, navigationType := .tab }).tabs =
          [{ id := 1, path := "/home", title := "Home", timestamp := "t0",
             isFromNavigation := false }] ++ [newTab] ∧
        (addTab 1700 "t" "/cases" "Cases" false
          { tabs := [{ id := 1, path := "/home", title := "Home", timestamp := "t0",
                       isFromNavigation := false }],
            activeTab := some 1, navigationType := .tab }).activeTab = some newTab.id :=
  ⟨(addTab_spec 1700 "t" "/login" "Login" false _).1 (Or.inl rfl),
    (addTab_spec 1700 "t" "/cases" "Cases" false _).2 (by decide) (by decide)⟩

/-- When no existing tab has the id `Date.now()` gives, the tab that `addTab` appends is the
one `getActiveTabInfo()` returns afterwards. -/
theorem addTab_active_info (now : Nat) (timestamp path title : String)
    (isFromNavigation : Bool) (s : TabState)
    (hpath : path ≠ "/login" ∧ path ≠ "/") (hnew : ∀ tab ∈ s.tabs, tab.path ≠ path)
    (hid : ∀ tab ∈ s.tabs, tab.id ≠ now) :
    getActiveTabInfo (addTab now timestamp path title isFromNavigation s) =
      some { id := now, path := path, title := title, timestamp := timestamp,
             isFromNavigation := isFromNavigation } := by
  have hc : path ∉ EXCLUDED_PATHS := by
    simp [EXCLUDED_PATHS, hpath.1, hpath.2]
  have hfind : s.tabs.find? (fun tab => tab.path == path) = none := by
    rw [List.find?_eq_none]
    intro tab htab
    simpa using hnew tab htab
  simp [getActiveTabInfo, addTab, hc, hfind, List.find?_append]
  exact Or.inr hid

end TabContext

namespace AuthService

/-! ## Logout -/

theorem keys_removeItem (st : Storage) (k key : String) :
    key ∈ keys (st.removeItem k) ↔ key ∈ keys st ∧ key ≠ k := by
  simp only [keys, Storage.removeItem, List.mem_map, List.mem_filter]
  constructor
  · rintro ⟨a, ⟨ha, hk⟩, rfl⟩
    exact ⟨⟨a, ha, rfl⟩, by simpa using hk⟩
  · rintro ⟨⟨a, ha, rfl⟩, hk⟩
    exact ⟨a, ⟨ha, by simpa using hk⟩, rfl⟩

theorem keys_removeAll (ks : List String) :
    ∀ (st : Storage) (key : String), key ∈ keys (removeAll st ks) ↔ key ∈ keys st ∧ key ∉ ks := by
  induction ks with
  | nil => intro st key; simp [removeAll]
  | cons k ks ih =>
    intro st key
    have h := ih (st.removeItem k) key
    simp only [removeAll, List.foldl_cons] at h ⊢
    rw [h, keys_removeItem]
    simp only [List.mem_cons, not_or]
    tauto

theorem getItem_removeAll (ks : List String) :
    ∀ (st : Storage) (key : String), key ∉ ks →
      (removeAll st ks).getItem key = st.getItem key := by
  induction ks with
  | nil => intro st key _; rfl
  | cons k ks ih =>
    intro st key hk
    simp only [List.mem_cons, not_or] at hk
    have h := ih (st.removeItem k) key hk.2
    simp only [removeAll, List.foldl_cons] at h ⊢
    rw [h, Storage.getItem_removeItem_ne _ _ _ (Ne.symm hk.1)]

theorem getItem_eq_none_of_not_mem_keys (st : Storage) (key : String) (h : key ∉ keys st) :
    st.getItem key = none := by
  induction st with
  | nil => rfl
  | cons kv rest ih =>
    obtain ⟨k, v⟩ := kv
    simp only [keys, List.map_cons, List.mem_cons, not_or] at h
    simp only [Storage.getItem, Ne.symm h.1, if_false]
    exact ih h.2

/-- C14. After `logoutUser()`, whether or not the backend request fails, `localStorage`
holds none of `authToken`, `refreshToken`, `userInfo` and no key that starts with
`chatHistory_`, `currentConversationId_` or `currentMessage_`; every other key keeps its
value; and `isAuthenticated()` returns `false`. -/
theorem logoutUser_spec (fetchFails : Bool) (st : Storage) (key : String) :
    (key ∈ keys (logoutUser fetchFails st) →
        key ≠ "authToken" ∧ key ≠ "refreshToken" ∧ key ≠ "userInfo" ∧
          startsWith key "chatHistory_" = false ∧
          startsWith key "currentConversationId_" = false ∧
          startsWith key "currentMessage_" = false) ∧
      ((key ≠ "authToken" ∧ key ≠ "refreshToken" ∧ key ≠ "userInfo" ∧
          startsWith key "chatHistory_" = false ∧
          startsWith key "currentConversationId_" = false ∧
          startsWith key "currentMessage_" = false) →
        (logoutUser fetchFails st).getItem key = st.getItem key) ∧
      isAuthenticated (logoutUser fetchFails st) = false := by
  have hkeys : ∀ k, k ∈ keys (logoutUser fetchFails st) ↔
      (k ∈ keys st ∧ isChatKey k = false) ∧ k ≠ "authToken" ∧ k ≠ "refreshToken" ∧
        k ≠ "userInfo" := by
    intro k
    simp only [logoutUser, ite_self, keys_removeItem, keys_removeAll, List.mem_filter]
    constructor
    · rintro ⟨⟨⟨⟨h1, h2⟩, h3⟩, h4⟩, h5⟩
      refine ⟨⟨h1, ?_⟩, h3, h4, h5⟩
      cases hc : isChatKey k
      · rfl
      · exact absurd ⟨h1, hc⟩ h2
    · rintro ⟨⟨h1, h2⟩, h3, h4, h5⟩
      exact ⟨⟨⟨⟨h1, fun hc => by simp [h2] at hc⟩, h3⟩, h4⟩, h5⟩
  refine ⟨?_, ?_, ?_⟩
  · intro hk
    obtain ⟨⟨_, hchat⟩, h3, h4, h5⟩ := (hkeys key).mp hk
    simp only [isChatKey, Bool.or_eq_false_iff] at hchat
    exact ⟨h3, h4, h5, hchat.1.1, hchat.1.2, hchat.2⟩
  · rintro ⟨h3, h4, h5, c1, c2, c3⟩
    have hchat : isChatKey key = false := by simp [isChatKey, c1, c2, c3]
    simp only [logoutUser, ite_self]
    rw [Storage.getItem_removeItem_ne _ _ _ (Ne.symm h5),
      Storage.getItem_removeItem_ne _ _ _ (Ne.symm h4),
      Storage.getItem_removeItem_ne _ _ _ (Ne.symm h3)]
    apply getItem_removeAll
    intro hm
    simp [List.mem_filter, hchat] at hm
  · have hnot : "authToken" ∉ keys (logoutUser fetchFails st) := by
      intro hm
      exact ((hkeys _).mp hm).2.1 rfl
    simp [isAuthenticated, getItem_eq_none_of_not_mem_keys _ _ hnot, strTruthy]

/-- Witness of C14: a logout that leaves the key `theme` alone. -/
theorem logoutUser_spec_witness :
    (logoutUser true [("authToken", "abc"), ("chatHistory_u1", "[]"), ("theme", "dark"),
        ("userInfo", "x")]).getItem "theme" =
      Storage.getItem [("authToken", "abc"), ("chatHistory_u1", "[]"), ("theme", "dark"),
        ("userInfo", "x")] "theme" :=
  (logoutUser_spec true [("authToken", "abc"), ("chatHistory_u1", "[]"), ("theme", "dark"),
    ("userInfo", "x")] "theme").2.1 (by decide)

end AuthService

namespace DocumentManagement

/-! ## Pagination of documents -/

theorem includes_empty (s : String) : includes s "" = true := by
  simp only [includes, List.any_eq_true, List.mem_tails]
  refine ⟨s.toList, List.suffix_refl _, ?_⟩
  show List.isPrefixOf [] s.toList = true
  cases s.toList <;> rfl

theorem slice_nat {α : Type} (l : List α) (s e : Nat) :
    slice l (s : Int) (e : Int) = (l.take e).drop s := by
  have hs : ¬ ((s : Int) < 0) := by omega
  have he : ¬ ((e : Int) < 0) := by omega
  simp only [slice, hs, he, if_false]
  have h1 : (min (e : Int) (l.length : Int)).toNat = min e l.length := by omega
  have h2 : (min (s : Int) (l.length : Int)).toNat = min s l.length := by omega
  rw [h1, h2]
  have ht : l.take (min e l.length) = l.take e := by
    rcases Nat.le_total e l.length with h | h
    · rw [Nat.min_eq_left h]
    · rw [Nat.min_eq_right h, List.take_of_length_le (le_refl _), List.take_of_length_le h]
  rw [ht]
  rcases Nat.le_total s l.length with h | h
  · rw [Nat.min_eq_left h]
  · rw [Nat.min_eq_right h]
    have hlen : (l.take e).length ≤ l.length := by
      rw [List.length_take]; exact Nat.min_le_right _ _
    rw [List.drop_of_length_le hlen, List.drop_of_length_le (le_trans hlen h)]

theorem files_page (filtered : List S3File) (p : Nat) (hp : 1 ≤ p) :
    files filtered (p : Int) = (filtered.take ((p - 1) * 10 + 10)).drop ((p - 1) * 10) := by
  have h1 : ((p : Int) - 1) * ((pageSize : Nat) : Int) = (((p - 1) * 10 : Nat) : Int) := by
    simp only [pageSize]; push_cast; omega
  have h2 : ((p : Int) - 1) * ((pageSize : Nat) : Int) + ((pageSize : Nat) : Int) =
      (((p - 1) * 10 + 10 : Nat) : Int) := by
    simp only [pageSize]; push_cast; omega
  simp only [files]
  rw [h2, h1, slice_nat]

theorem pages_concat {α : Type} (l : List α) (m : Nat) :
    (List.range m).flatMap (fun i => (l.take (i * 10 + 10)).drop (i * 10)) = l.take (m * 10) := by
  induction m with
  | zero => simp
  | succ m ih =>
    rw [List.range_succ, List.flatMap_append, ih]
    simp only [List.flatMap_cons, List.flatMap_nil, List.append_nil]
    have h : l.take (m * 10) = (l.take (m * 10 + 10)).take (m * 10) := by
      rw [List.take_take, Nat.min_eq_left (Nat.le_add_right _ _)]
    rw [h, List.take_append_drop]
    congr 1
    omega

theorem ceilDiv_ten_eq_ceil (n : Nat) : ceilDiv n 10 = ⌈(n : ℚ) / 10⌉₊ := by
  symm
  rcases Nat.eq_zero_or_pos n with h | h
  · subst h
    simp [ceilDiv]
  · have hk : ceilDiv n 10 ≠ 0 := by
      simp only [ceilDiv]; omega
    have h1 : 10 * (ceilDiv n 10 - 1) < n := by
      simp only [ceilDiv]; omega
    have h2 : n ≤ 10 * ceilDiv n 10 := by
      simp only [ceilDiv]; omega
    rw [Nat.ceil_eq_iff hk]
    constructor
    · rw [lt_div_iff₀ (by norm_num : (0 : ℚ) < 10)]
      have : ((10 * (ceilDiv n 10 - 1) : ℕ) : ℚ) < (n : ℚ) := by exact_mod_cast h1
      push_cast at this ⊢
      linarith
    · rw [div_le_iff₀ (by norm_num : (0 : ℚ) < 10)]
      have : ((n : ℕ) : ℚ) ≤ ((10 * ceilDiv n 10 : ℕ) : ℚ) := by exact_mod_cast h2
      push_cast at this
      linarith

/-- C15. With `filtered` the files whose lower-cased name includes the lower-cased search
term and `n` its length: `totalPages` is `⌈n / 10⌉`, every page `p` with
`1 ≤ p ≤ totalPages` shows between 1 and 10 files, and the pages `1 .. totalPages`
concatenated in order are exactly `filtered`. -/
theorem pagination_spec (toLowerCase : String → String) (hlow : toLowerCase "" = "")
    (allFiles : List S3File) (searchTerm : String) :
    filteredFiles toLowerCase allFiles searchTerm =
        allFiles.filter
          (fun file => includes (toLowerCase file.name) (toLowerCase searchTerm)) ∧
      totalPages (filteredFiles toLowerCase allFiles searchTerm) =
        ⌈((filteredFiles toLowerCase allFiles searchTerm).length : ℚ) / 10⌉₊ ∧
      (∀ p : Nat, 1 ≤ p → p ≤ totalPages (filteredFiles toLowerCase allFiles searchTerm) →
        1 ≤ (files (filteredFiles toLowerCase allFiles searchTerm) (p : Int)).length ∧
          (files (filteredFiles toLowerCase allFiles searchTerm) (p : Int)).length ≤ 10) ∧
      (List.range (totalPages (filteredFiles toLowerCase allFiles searchTerm))).flatMap
          (fun i => files (filteredFiles toLowerCase allFiles searchTerm) ((i : Int) + 1)) =
        filteredFiles toLowerCase allFiles searchTerm := by
  refine ⟨?_, ceilDiv_ten_eq_ceil _, ?_, ?_⟩
  · by_cases h : searchTerm = ""
    · subst h
      simp [filteredFiles, hlow, includes_empty]
    · simp [filteredFiles, h]
  · generalize filteredFiles toLowerCase allFiles searchTerm = fl
    intro p hp1 hp2
    rw [files_page fl p hp1, List.length_drop, List.length_take]
    simp only [totalPages, ceilDiv, pageSize] at hp2
    omega
  · generalize filteredFiles toLowerCase allFiles searchTerm = fl
    have hpage : ∀ i : Nat, files fl ((i : Int) + 1) = (fl.take (i * 10 + 10)).drop (i * 10) := by
      intro i
      have := files_page fl (i + 1) (by omega)
      simpa using this
    simp only [hpage]
    rw [pages_concat, List.take_of_length_le]
    simp only [totalPages, ceilDiv, pageSize]
    omega

/-- Witness of C15: three files, two of which match `'pdf'`; page 1 shows them. -/
theorem pagination_spec_witness :
    1 ≤ (files (filteredFiles asciiLower
          [{ name := "Guide.PDF", size := 1, lastModified := "" },
           { name := "notes.txt", size := 2, lastModified := "" },
           { name := "faq.pdf", size := 3, lastModified := "" }] "pdf") ((1 : Nat) : Int)).length ∧
      (files (filteredFiles asciiLower
          [{ name := "Guide.PDF", size := 1, lastModified := "" },
           { name := "notes.txt", size := 2, lastModified := "" },
           { name := "faq.pdf", size := 3, lastModified := "" }] "pdf") ((1 : Nat) : Int)).length
        ≤ 10 :=
  (pagination_spec asciiLower rfl
    [{ name := "Guide.PDF", size := 1, lastModified := "" },
     { name := "notes.txt", size := 2, lastModified := "" },
     { name := "faq.pdf", size := 3, lastModified := "" }] "pdf").2.2.1 1 (by decide) (by decide)

end DocumentManagement

end OneSupport
